import Mathlib

/-!
Shallow embedding of the AGENTIC orchestration core: `src/Agency.js` together
with the `MemoryManager` / `EventEmitter` module it imports (`Agent.js`).

Modelling conventions, used throughout:
* A JavaScript object is an association list preserving insertion order
  (`Obj`); `obj[k] = v` keeps the original position of an existing key and
  appends a fresh one, exactly like JS property assignment.
* JS `undefined` is `Val.vundef`, `null` is `Val.vnull`.
* A JS exception is `Except.error` carrying the error message.  Every stateful
  method returns the updated state paired with its outcome, because a thrown
  JS exception does not roll back mutations that already happened.
* `new Date()` values are drawn from a logical clock field of the state.
* The external `Runnable` capabilities (agent/team `run`), `JSON.parse` and
  the regex match used by the planner are modelled as an environment `Env` of
  pure functions: they are external collaborators of the core.
* Event emissions are recorded in an append-only `eventLog` (the listeners
  themselves are external).  Assignments to a job's `status` field are
  additionally recorded in the ghost field `statusLog` as
  `(jobId, oldStatus, newStatus)` triples, so that status transitions are
  first-class observables; `statusLog` entries are appended exactly at the
  points where `Agency.js` assigns `job.status`.
-/

/-- A JavaScript runtime value. -/
inductive Val where
  | vundef
  | vnull
  | vbool (b : Bool)
  | vnum (n : Int)
  | vstr (s : String)
  | varr (elems : List Val)
  | vobj (fields : List (String × Val))

/-- A JavaScript object: ordered association list of properties. -/
abbrev Obj := List (String × Val)

/-- Lookup of a property in an association list (first match; our
construction keeps keys unique). -/
def lookupKey {α : Type} : List (String × α) → String → Option α
  | [], _ => none
  | (k₁, v) :: rest, k => if k₁ = k then some v else lookupKey rest k

/-- JS property assignment `o[k] = v`: overwrite in place, else append. -/
def setEntry {α : Type} : List (String × α) → String → α → List (String × α)
  | [], k, v => [(k, v)]
  | (k₁, v₁) :: rest, k, v =>
      if k₁ = k then (k, v) :: rest else (k₁, v₁) :: setEntry rest k v

/-- JS `delete o[k]`. -/
def delEntry {α : Type} (l : List (String × α)) (k : String) : List (String × α) :=
  l.filter (fun p => p.1 != k)

/-- JS object spread `{...a, ...b}`: `b`'s properties override `a`'s. -/
def jsMerge (a b : Obj) : Obj :=
  b.foldl (fun acc p => setEntry acc p.1 p.2) a

/-- JS truthiness. -/
def truthy : Val → Bool
  | .vundef => false
  | .vnull => false
  | .vbool b => b
  | .vnum n => n != 0
  | .vstr s => s != ""
  | .varr _ => true
  | .vobj _ => true

/-- Property access `o.k` (absent keys read as `undefined`). -/
def getField (o : Obj) (k : String) : Val :=
  (lookupKey o k).getD Val.vundef

/-- String value of a field when it is a string; `none` otherwise.  Used for
the brief fields that `Agency.js` treats as strings. -/
def strField (o : Obj) (k : String) : Option String :=
  match lookupKey o k with
  | some (.vstr s) => some s
  | _ => none

/-- Substring test on character lists, auxiliary for `jsIncludes`. -/
def charsLeadMatch : List Char → List Char → Bool
  | [], _ => true
  | _ :: _, [] => false
  | a :: as, b :: bs => a = b && charsLeadMatch as bs

/-- Auxiliary for `jsIncludes`: does `pat` occur inside the list? -/
def charsContain (pat : List Char) : List Char → Bool
  | [] => pat.isEmpty
  | c :: rest => charsLeadMatch pat (c :: rest) || charsContain pat rest

/-- JS `s.includes(pat)`. -/
def jsIncludes (s pat : String) : Bool :=
  charsContain pat.toList s.toList

/-- JS string coercion (template literals, `String(x)`). -/
def jsDisplay : Val → String
  | .vundef => "undefined"
  | .vnull => "null"
  | .vbool b => if b then "true" else "false"
  | .vnum n => toString n
  | .vstr s => s
  | .varr l => String.intercalate "," (l.map (fun v => jsDisplayShallow v))
  | .vobj _ => "[object Object]"
where
  /-- One-level coercion for array elements (deeper nesting, which JS would
  flatten recursively, does not occur in any modelled value). -/
  jsDisplayShallow : Val → String
  | .vundef => ""
  | .vnull => ""
  | .vbool b => if b then "true" else "false"
  | .vnum n => toString n
  | .vstr s => s
  | .varr _ => ""
  | .vobj _ => "[object Object]"

mutual
/-- `JSON.stringify` (compact rendering; the `(·, null, 2)` pretty-printing
whitespace of the original is abstracted away — the output only ever feeds
the opaque prompt text). -/
def jsonStringify : Val → String
  | .vundef => "undefined"
  | .vnull => "null"
  | .vbool b => if b then "true" else "false"
  | .vnum n => toString n
  | .vstr s => "\"" ++ s ++ "\""
  | .varr l => "[" ++ jsonStringifyArr l ++ "]"
  | .vobj l => "\x7b" ++ jsonStringifyObj l ++ "\x7d"

def jsonStringifyArr : List Val → String
  | [] => ""
  | [v] => jsonStringify v
  | v :: rest => jsonStringify v ++ "," ++ jsonStringifyArr rest

def jsonStringifyObj : List (String × Val) → String
  | [] => ""
  | [(k, v)] => "\"" ++ k ++ "\":" ++ jsonStringify v
  | (k, v) :: rest => "\"" ++ k ++ "\":" ++ jsonStringify v ++ "," ++ jsonStringifyObj rest
end

/-- Result of a `MemoryManager.remember` call as seen by the caller: the
original method returns `undefined`, the read-only wrapper installed by
`shareMemoryBetween` returns `false`. -/
inductive WriteRes where
  | ok
  | refused
deriving DecidableEq, Repr

/-- The `MemoryManager` of `Agent.js`, restricted to the key-value store that
the orchestration core uses (the conversation-history half of the class is
not touched by any modelled operation).  `roKeys` embeds the per-key
read-only wrappers that `Agency.shareMemoryBetween` installs around the
instance's `remember` method: a key is in `roKeys` exactly when some wrapper
refuses writes to it. -/
structure MemoryManager where
  keyValueStore : Obj
  roKeys : List String

def emptyScope : MemoryManager := { keyValueStore := [], roKeys := [] }

/-- `remember(key, value)`, as wrapped by any read-only grants installed on
this instance: a write to a granted key returns `false` and changes nothing,
any other write stores the value. -/
def MemoryManager.remember (m : MemoryManager) (k : String) (v : Val) :
    MemoryManager × WriteRes :=
  if m.roKeys.contains k then (m, .refused)
  else ({ m with keyValueStore := setEntry m.keyValueStore k v }, .ok)

/-- `recall(key)`: stored value, or `undefined` when unset. -/
def MemoryManager.recall (m : MemoryManager) (k : String) : Val :=
  getField m.keyValueStore k

theorem lookupKey_setEntry {α : Type} (l : List (String × α)) (k k₂ : String) (v : α) :
    lookupKey (setEntry l k v) k₂ = if k₂ = k then some v else lookupKey l k₂ := by
  induction l with
  | nil =>
      simp only [setEntry, lookupKey]
      by_cases h : k = k₂
      · subst h; simp
      · have h₂ : ¬(k₂ = k) := fun hh => h hh.symm
        simp [h, h₂]
  | cons p rest ih =>
      obtain ⟨k₁, v₁⟩ := p
      by_cases h₁ : k₁ = k
      · subst h₁
        simp only [setEntry, if_pos rfl, lookupKey]
        by_cases h₂ : k₁ = k₂
        · subst h₂; simp
        · have h₂s : ¬(k₂ = k₁) := fun hh => h₂ hh.symm
          simp [h₂, h₂s]
      · simp only [setEntry, if_neg h₁, lookupKey]
        by_cases h₂ : k₁ = k₂
        · subst h₂; simp [h₁]
        · simp [h₂, ih]

theorem lookupKey_delEntry {α : Type} (l : List (String × α)) (k k₂ : String) :
    lookupKey (delEntry l k) k₂ = if k₂ = k then none else lookupKey l k₂ := by
  induction l with
  | nil => simp [delEntry, lookupKey]
  | cons p rest ih =>
      obtain ⟨k₁, v₁⟩ := p
      by_cases h₁ : k₁ = k
      · subst h₁
        have hd : delEntry ((k₁, v₁) :: rest) k₁ = delEntry rest k₁ := by
          simp [delEntry]
        rw [hd, ih]
        by_cases h₂ : k₂ = k₁
        · simp [h₂]
        · have h₂s : ¬(k₁ = k₂) := fun hh => h₂ hh.symm
          simp [h₂, lookupKey, h₂s]
      · have hd : delEntry ((k₁, v₁) :: rest) k = (k₁, v₁) :: delEntry rest k := by
          simp [delEntry, List.filter_cons, h₁]
        rw [hd]
        by_cases h₂ : k₁ = k₂
        · subst h₂
          simp [lookupKey, h₁]
        · simp [lookupKey, h₂, ih]

/-- Status of a `Job` (`Agency.js` uses the strings
`assigned`, `in_progress`, `completed`, `failed`). -/
inductive JobStatus where
  | assigned
  | in_progress
  | completed
  | failed
deriving DecidableEq, Repr

/-- A `Job` record, as built by `Agency.assignJob`.  `retryCount` is absent
until the first `retryJob` call in the original (`job.retryCount || 0`
defaults it to 0), which is equivalent to initialising it to 0 here. -/
structure Job where
  jobId : String
  brief : Obj
  assigneeId : String
  assigneeType : String
  status : JobStatus
  assignedAt : Nat
  startedAt : Option Nat
  completedAt : Option Nat
  results : Option Val
  error : Option String
  retryCount : Nat

/-- Access-control record stored by `Agency.shareMemoryBetween`. -/
structure AccessGrant where
  sourceScope : String
  accessMode : String
  sharedAt : Nat
deriving Repr

/-- One field of a job input/output schema (`defineJobSchema`). -/
structure FieldSchema where
  required : Bool
  typeName : Option String
  enumVals : Option (List Val)

abbrev Schema := List (String × FieldSchema)

structure JobSchema where
  input : Option Schema
  output : Option Schema

/-- `typeof data[key]`, with the `Array.isArray` test applied first as in
`_validateAgainstSchema` (JS `typeof null` is `"object"`). -/
def jsTypeOf : Val → String
  | .varr _ => "array"
  | .vundef => "undefined"
  | .vnull => "object"
  | .vbool _ => "boolean"
  | .vnum _ => "number"
  | .vstr _ => "string"
  | .vobj _ => "object"

/-- Status of a `WorkflowRun`. -/
inductive WfStatus where
  | in_progress
  | completed
  | failed
deriving DecidableEq, Repr

/-- One parallel branch of a `parallel` workflow step, after resolving the
scalar-or-array step fields per index. -/
structure BranchDef where
  jobId : String
  assigneeId : String
  assigneeType : String
  inputs : Obj
  brief : Obj

/-- A workflow step definition.  The original is a duck-typed object whose
`type` field selects the branch taken by `executeWorkflow`; the three shapes
are embedded as constructors.  A `conditional` step carries the
caller-supplied predicate over `(currentData, workflowMemory)`. -/
inductive Step where
  | seq (jobId assigneeId assigneeType : String) (inputs : Obj) (brief : Obj)
  | par (branches : List BranchDef)
  | cond (jobId assigneeId assigneeType : String) (inputs : Obj) (brief : Obj)
      (condition : Val → MemoryManager → Bool)

/-- A `WorkflowRun` record (`this.workflows[workflowId]`). -/
structure WorkflowRun where
  id : String
  definition : List Step
  status : WfStatus
  startedAt : Nat
  completedAt : Option Nat
  currentStep : Nat
  results : Obj
  error : Option String

/-- Per-job error handler (`setErrorHandler`): receives the error message and
the failed job, returns a substitute value or itself throws. -/
abbrev JobErrHandler := String → Job → Except String Val

/-- Workflow-level error handler (`setWorkflowErrorHandler`). -/
abbrev WfErrHandler := String → WorkflowRun → Except String Val

/-- An event emission `(name, payload)` recorded on the agency's bus. -/
abbrev Event := String × Obj

/-- The mutable state of one `Agency` instance.  `statusLog` is a ghost
field: a `(jobId, old, new)` triple is appended exactly where `Agency.js`
assigns `job.status`, making status transitions observable. -/
structure AgencyState where
  agents : List String
  team : List String
  brief : List (String × Obj)
  activeJobs : List (String × Job)
  jobContexts : List (String × Obj)
  workflows : List (String × WorkflowRun)
  memoryScopes : List (String × MemoryManager)
  errorHandlers : List (String × JobErrHandler)
  workflowErrorHandlers : List (String × WfErrHandler)
  jobSchemas : List (String × JobSchema)
  memoryAccessControl : List (String × List (String × AccessGrant))
  eventLog : List Event
  statusLog : List (String × JobStatus × JobStatus)
  clock : Nat

/-- A fresh agency with the given agents and teams registered via
`addAgent`/`addTeam`; the `global` memory scope always exists. -/
def mkAgency (agents team : List String) : AgencyState :=
  { agents := agents
    team := team
    brief := []
    activeJobs := []
    jobContexts := []
    workflows := []
    memoryScopes := [("global", emptyScope)]
    errorHandlers := []
    workflowErrorHandlers := []
    jobSchemas := []
    memoryAccessControl := []
    eventLog := []
    statusLog := []
    clock := 0 }

/-- Append an event emission to the log (`this.events.emit`). -/
def emit (st : AgencyState) (name : String) (payload : Obj) : AgencyState :=
  { st with eventLog := st.eventLog ++ [(name, payload)] }

/-- Planner prompts.  The literal few-shot prompt text built by
`planJobsFromGoal` / `replanFailedJob` is opaque to the engine (it only feeds
the external `Runnable`), so it is abstracted as a constructor applied to the
data the original interpolates into it. -/
inductive PlanPrompt where
  | planning (goal : String)
  | replanning (goal taskName overview : Val) (errMsg : String)

/-- The external world: the `Runnable` capabilities of agents and teams, and
the JS runtime primitives the planner uses (`JSON.parse` and the
`/\[\s*\{.*\}\s*\]/s` regex match).  `runAgent` receives the formatted prompt
and the `{jobId, jobContext}` context object; `runTeam` receives the merged
inputs and the `{brief, jobId, jobContext}` context object; `parseJson`
returns the parsed value or the `SyntaxError` message. -/
structure Env where
  runAgent : String → String → Obj → Except String Val
  runTeam : String → Obj → Obj → Except String Val
  runPlanner : String → PlanPrompt → Except String Val
  parseJson : Val → Except String Val
  matchArray : Val → Option String

def Val.isUndef : Val → Bool
  | .vundef => true
  | _ => false

mutual
/-- Structural value equality, used for the schema `enum` membership test
(the enum values used with `_validateAgainstSchema` are scalars, for which JS
`includes` agrees with structural equality). -/
def Val.beq : Val → Val → Bool
  | .vundef, .vundef => true
  | .vnull, .vnull => true
  | .vbool a, .vbool b => a == b
  | .vnum a, .vnum b => a == b
  | .vstr a, .vstr b => a == b
  | .varr a, .varr b => Val.beqList a b
  | .vobj a, .vobj b => Val.beqFields a b
  | _, _ => false

def Val.beqList : List Val → List Val → Bool
  | [], [] => true
  | a :: as, b :: bs => Val.beq a b && Val.beqList as bs
  | _, _ => false

def Val.beqFields : List (String × Val) → List (String × Val) → Bool
  | [], [] => true
  | (k₁, a) :: as, (k₂, b) :: bs => k₁ == k₂ && Val.beq a b && Val.beqFields as bs
  | _, _ => false
end

/-- `Agency.createMemoryScope`: fails when the scope id is taken. -/
def Agency.createMemoryScope (st : AgencyState) (scopeId : String) :
    AgencyState × Except String MemoryManager :=
  match lookupKey st.memoryScopes scopeId with
  | some _ => (st, .error s!"Memory scope {scopeId} already exists")
  | none =>
      let m := emptyScope
      ({ st with memoryScopes := setEntry st.memoryScopes scopeId m }, .ok m)

/-- `Agency.getMemoryScope`. -/
def Agency.getMemoryScope (st : AgencyState) (scopeId : String) :
    Except String MemoryManager :=
  match lookupKey st.memoryScopes scopeId with
  | some m => .ok m
  | none => .error s!"Memory scope {scopeId} not found"

/-- A `remember` call on a scope object held in the agency's scope table
(`this.memoryScopes[scopeId].remember(k, v)`). -/
def rememberInScope (st : AgencyState) (scopeId k : String) (v : Val) :
    AgencyState × WriteRes :=
  match lookupKey st.memoryScopes scopeId with
  | none => (st, .refused)
  | some m =>
      let r := m.remember k v
      ({ st with memoryScopes := setEntry st.memoryScopes scopeId r.1 }, r.2)

/-- One iteration of the `for (const key of keysToShare)` loop of
`Agency.shareMemoryBetween`: copy the source value if defined, record the
access grant, and for `read-only` mode install the write-refusing wrapper
around the target's `remember` (embedded as adding the key to `roKeys`). -/
def Agency.shareKeyStep (st : AgencyState) (sourceId targetId accessMode key : String) :
    AgencyState :=
  let src := (lookupKey st.memoryScopes sourceId).getD emptyScope
  let value := src.recall key
  if value.isUndef then st
  else
    let tgt := (lookupKey st.memoryScopes targetId).getD emptyScope
    let w := tgt.remember key value
    let st := { st with memoryScopes := setEntry st.memoryScopes targetId w.1 }
    let ctrl := (lookupKey st.memoryAccessControl targetId).getD []
    let ctrl := setEntry ctrl key
      { sourceScope := sourceId, accessMode := accessMode, sharedAt := st.clock }
    let st := { st with
      memoryAccessControl := setEntry st.memoryAccessControl targetId ctrl }
    if accessMode = "read-only" then
      let tgt₂ := (lookupKey st.memoryScopes targetId).getD emptyScope
      { st with memoryScopes :=
          setEntry st.memoryScopes targetId { tgt₂ with roKeys := tgt₂.roKeys ++ [key] } }
    else st

/-- `Agency.shareMemoryBetween(sourceId, targetId, keys, accessMode)`. -/
def Agency.shareMemoryBetween (st : AgencyState) (sourceId targetId : String)
    (keys : List String) (accessMode : String) : AgencyState × Except String Unit :=
  match lookupKey st.memoryScopes sourceId with
  | none => (st, .error s!"Memory scope {sourceId} not found")
  | some src =>
  match lookupKey st.memoryScopes targetId with
  | none => (st, .error s!"Memory scope {targetId} not found")
  | some _ =>
      let keysToShare := if keys.length > 0 then keys else src.keyValueStore.map Prod.fst
      let st := match lookupKey st.memoryAccessControl targetId with
        | some _ => st
        | none => { st with
            memoryAccessControl := setEntry st.memoryAccessControl targetId [] }
      let st := keysToShare.foldl
        (fun s k => Agency.shareKeyStep s sourceId targetId accessMode k) st
      (emit st "memory:shared"
        [("sourceScope", .vstr sourceId), ("targetScope", .vstr targetId),
         ("keys", .varr (keysToShare.map Val.vstr)), ("accessMode", .vstr accessMode)],
       .ok ())

/-- `Agency.getMemoryAccessInfo` (`null` when no grant is recorded). -/
def Agency.getMemoryAccessInfo (st : AgencyState) (scopeId key : String) :
    Option AccessGrant :=
  match lookupKey st.memoryAccessControl scopeId with
  | none => none
  | some ctrl => lookupKey ctrl key

/-- `Agency.createBrief`: `{jobId, createdAt, ...briefData}` (the spread can
override the two fixed fields), stored under the job id. -/
def Agency.createBrief (st : AgencyState) (jobId : String) (briefData : Obj) :
    AgencyState × Obj :=
  let brief := jsMerge [("jobId", .vstr jobId), ("createdAt", .vnum st.clock)] briefData
  let st := { st with brief := setEntry st.brief jobId brief }
  (emit st "brief:created" [("jobId", .vstr jobId), ("brief", .vobj brief)], brief)

/-- `Agency.createJobContext`. -/
def Agency.createJobContext (st : AgencyState) (jobId : String) (initialContext : Obj) :
    AgencyState × Obj :=
  let ctx := jsMerge initialContext
    [("createdAt", .vnum st.clock), ("updatedAt", .vnum st.clock)]
  let st := { st with jobContexts := setEntry st.jobContexts jobId ctx }
  (emit st "jobContext:created" [("jobId", .vstr jobId), ("context", .vobj ctx)], ctx)

/-- `Agency.updateJobContext`: throws when the context is missing. -/
def Agency.updateJobContext (st : AgencyState) (jobId : String) (updates : Obj) :
    AgencyState × Except String Obj :=
  match lookupKey st.jobContexts jobId with
  | none => (st, .error s!"Job context for {jobId} not found")
  | some ctx =>
      let ctx := jsMerge (jsMerge ctx updates) [("updatedAt", .vnum st.clock)]
      let st := { st with jobContexts := setEntry st.jobContexts jobId ctx }
      let st := emit st "jobContext:updated"
        [("jobId", .vstr jobId), ("context", .vobj ctx),
         ("updates", .varr (updates.map (fun p => Val.vstr p.1)))]
      (st, .ok ctx)

/-- `Agency.assignJob(jobId, assigneeId, assigneeType)`: requires a Brief and
an existing assignee, installs a fresh Job in `assigned` state (replacing any
previous job object under the same id), and creates the JobContext when
absent.  Building a new Job object is a creation, not an assignment to an
existing job's `status` field, so nothing is appended to `statusLog`. -/
def Agency.assignJob (st : AgencyState) (jobId assigneeId assigneeType : String) :
    AgencyState × Except String Job :=
  match lookupKey st.brief jobId with
  | none => (st, .error s!"No brief found for job {jobId}")
  | some brief =>
      let found := if assigneeType = "agent" then st.agents.contains assigneeId
                   else st.team.contains assigneeId
      if !found then (st, .error s!"{assigneeType} {assigneeId} not found")
      else
        let job : Job :=
          { jobId := jobId, brief := brief, assigneeId := assigneeId,
            assigneeType := assigneeType, status := .assigned,
            assignedAt := st.clock, startedAt := none, completedAt := none,
            results := none, error := none, retryCount := 0 }
        let st := { st with activeJobs := setEntry st.activeJobs jobId job }
        let st := match lookupKey st.jobContexts jobId with
          | some _ => st
          | none => (Agency.createJobContext st jobId []).1
        (emit st "job:assigned"
          [("jobId", .vstr jobId), ("assigneeId", .vstr assigneeId),
           ("assigneeType", .vstr assigneeType)], .ok job)

structure ValidationRes where
  isValid : Bool
  errors : List String

/-- Violations contributed by one schema field in `_validateAgainstSchema`
(required check short-circuits the field, then type and enum checks). -/
def fieldViolations (data : Obj) (key : String) (fs : FieldSchema) : List String :=
  let dval := getField data key
  let isNullish := dval.isUndef || (match dval with | .vnull => true | _ => false)
  if fs.required && isNullish then
    ["Required field \x27" ++ key ++ "\x27 is missing"]
  else
    let typeErrs := match fs.typeName with
      | some t =>
          if !dval.isUndef && jsTypeOf dval != t then
            ["Field \x27" ++ key ++ "\x27 should be of type \x27" ++ t ++
             "\x27, but got \x27" ++ jsTypeOf dval ++ "\x27"]
          else []
      | none => []
    let enumErrs := match fs.enumVals with
      | some vs =>
          if !dval.isUndef && !(vs.any (fun v => Val.beq v dval)) then
            ["Field \x27" ++ key ++ "\x27 should be one of [" ++
             String.intercalate ", " (vs.map jsDisplay) ++ "], but got \x27" ++
             jsDisplay dval ++ "\x27"]
          else []
      | none => []
    typeErrs ++ enumErrs

/-- `Agency._validateAgainstSchema`. -/
def Agency.validateAgainstSchema (data : Obj) (schema : Option Schema) : ValidationRes :=
  match schema with
  | none => { isValid := true, errors := [] }
  | some sch =>
      let errors := sch.foldl (fun errs p => errs ++ fieldViolations data p.1 p.2) []
      { isValid := errors.isEmpty, errors := errors }

/-- `Agency.extractInputsFromBrief`.  The original applies
`toLowerCase().includes(...)` to string-valued brief fields; a non-string
truthy field (which would make JS throw a TypeError) does not occur in any
modelled brief and is treated as a non-match. -/
def Agency.extractInputsFromBrief (brief : Obj) : Obj :=
  let hasWB : String → Bool := fun k =>
    match strField brief k with
    | some t => jsIncludes t.toLower "water bottle"
    | none => false
  let inputs : Obj :=
    if hasWB "title" then [("topic", .vstr "eco-friendly water bottles")]
    else if hasWB "overview" then [("topic", .vstr "eco-friendly water bottles")]
    else if hasWB "background" then [("topic", .vstr "eco-friendly water bottles")]
    else []
  let inputs := if truthy (getField brief "targetAudience") then
      setEntry inputs "targetAudience" (getField brief "targetAudience") else inputs
  let inputs :=
    if (match strField brief "deliverables" with
        | some d => jsIncludes d.toLower "social media"
        | none => false) then
      setEntry inputs "contentType" (.vstr "social media posts")
    else inputs
  let inputs := if truthy (getField brief "preferences") then
      setEntry inputs "preferences" (getField brief "preferences") else inputs
  let inputs := if truthy (getField brief "dates") then
      setEntry inputs "dates" (getField brief "dates") else inputs
  let inputs := if truthy (getField brief "budget") then
      setEntry inputs "budget" (getField brief "budget") else inputs
  let inputs := if truthy (getField brief "transportation") then
      setEntry inputs "transportation" (getField brief "transportation") else inputs
  inputs

/-- `Agency.formatBriefAsPrompt` (JSON indentation of the embedded
`JSON.stringify(..., null, 2)` call is rendered compactly). -/
def Agency.formatBriefAsPrompt (brief : Obj) (inputs : Obj) : String :=
  let opt : String → String → String := fun k dflt =>
    if truthy (getField brief k) then jsDisplay (getField brief k) else dflt
  let p := "\n# JOB BRIEF: " ++ jsDisplay (getField brief "title") ++
    "\n\n## Overview\n" ++ jsDisplay (getField brief "overview") ++
    "\n\n## Background\n" ++ opt "background" "Not provided" ++
    "\n\n## Objective\n" ++ jsDisplay (getField brief "objective") ++
    "\n\n## Target Audience\n" ++ opt "targetAudience" "Not specified" ++ "\n"
  let sect : String → String → String := fun hdr k =>
    if truthy (getField brief k) || truthy (getField inputs k) then
      "\n## " ++ hdr ++ "\n" ++
      jsDisplay (if truthy (getField brief k) then getField brief k
                 else getField inputs k) ++ "\n"
    else ""
  let p := p ++ sect "Preferences" "preferences" ++ sect "Dates" "dates" ++
    sect "Budget" "budget" ++ sect "Transportation" "transportation"
  let p := if truthy (getField brief "deliverables") then
      p ++ "\n## Deliverables\n" ++ jsDisplay (getField brief "deliverables") ++ "\n"
    else p
  let p := if truthy (getField brief "additionalInfo") then
      p ++ "\n## Additional Information\n" ++
        jsDisplay (getField brief "additionalInfo") ++ "\n"
    else p
  if truthy (getField inputs "workflowId") then
    let stepStr := match getField inputs "workflowStep" with
      | .vnum n => toString (n + 1)
      | _ => "NaN"
    let p := p ++ "\n## Workflow Context\nThis is step " ++ stepStr ++
      " of workflow " ++ jsDisplay (getField inputs "workflowId") ++ ".\n"
    if truthy (getField inputs "previousStepData") then
      p ++ "\n## Previous Step Results\n" ++
        jsonStringify (getField inputs "previousStepData") ++ "\n"
    else p
  else p

/-- View of a run result as an object for output-schema validation (property
access on a non-object JS value yields `undefined` for every key). -/
def objView : Val → Obj
  | .vobj fields => fields
  | _ => []

/-- `Agency.getJob`. -/
def Agency.getJob (st : AgencyState) (jobId : String) : Option Job :=
  lookupKey st.activeJobs jobId

/-- `Agency.setErrorHandler`. -/
def Agency.setErrorHandler (st : AgencyState) (jobId : String) (h : JobErrHandler) :
    AgencyState :=
  { st with errorHandlers := setEntry st.errorHandlers jobId h }

/-- `Agency.setWorkflowErrorHandler`. -/
def Agency.setWorkflowErrorHandler (st : AgencyState) (workflowId : String)
    (h : WfErrHandler) : AgencyState :=
  { st with workflowErrorHandlers := setEntry st.workflowErrorHandlers workflowId h }

/-- `Agency.defineJobSchema`. -/
def Agency.defineJobSchema (st : AgencyState) (jobId : String)
    (inputSchema outputSchema : Option Schema) : AgencyState :=
  let js : JobSchema := { input := inputSchema, output := outputSchema }
  { st with jobSchemas := setEntry st.jobSchemas jobId js }

/-- The `try` block of `Agency.execute` (everything between setting
`in_progress` and returning the validated results); its `Except.error`
outcomes are precisely the exceptions the surrounding `catch` receives.  The
transition to `in_progress` happens first and is never rolled back. -/
def Agency.executeAttempt (env : Env) (st : AgencyState) (jobId : String) (job : Job)
    (additionalInputs : Obj) : AgencyState × Except String Val :=
  let job₁ := { job with status := .in_progress, startedAt := some st.clock }
  let st := { st with
    activeJobs := setEntry st.activeJobs jobId job₁,
    statusLog := st.statusLog ++ [(jobId, job.status, JobStatus.in_progress)] }
  let st := emit st "job:started" [("jobId", .vstr jobId)]
  let briefInputs := Agency.extractInputsFromBrief job.brief
  let jobContext := (lookupKey st.jobContexts jobId).getD []
  let mergedInputs := jsMerge (jsMerge briefInputs jobContext) additionalInputs
  let schema := lookupKey st.jobSchemas jobId
  let inputValidation := match schema with
    | some js => Agency.validateAgainstSchema mergedInputs js.input
    | none => { isValid := true, errors := [] }
  if !inputValidation.isValid then
    (st, .error ("Input validation failed: " ++
      String.intercalate ", " inputValidation.errors))
  else
    let runRes :=
      if job.assigneeType = "agent" then
        env.runAgent job.assigneeId
          (Agency.formatBriefAsPrompt job.brief mergedInputs)
          [("jobId", .vstr jobId), ("jobContext", .vobj jobContext)]
      else
        env.runTeam job.assigneeId mergedInputs
          [("brief", .vobj job.brief), ("jobId", .vstr jobId),
           ("jobContext", .vobj jobContext)]
    match runRes with
    | .error e => (st, .error e)
    | .ok results =>
        let outputValidation := match schema with
          | some js => Agency.validateAgainstSchema (objView results) js.output
          | none => { isValid := true, errors := [] }
        if !outputValidation.isValid then
          (st, .error ("Output validation failed: " ++
            String.intercalate ", " outputValidation.errors))
        else
          let job₂ := { job₁ with
            status := .completed,
            completedAt := some st.clock,
            results := some results }
          let st := { st with
            activeJobs := setEntry st.activeJobs jobId job₂,
            statusLog := st.statusLog ++ [(jobId, JobStatus.in_progress, JobStatus.completed)] }
          match Agency.updateJobContext st jobId [("results", results)] with
          | (st, .error e) => (st, .error e)
          | (st, .ok _) =>
              (emit st "job:completed"
                [("jobId", .vstr jobId), ("results", results)], .ok results)

/-- `Agency.execute(jobId, additionalInputs)`.  On a failure inside the try
block the catch marks the job `failed`, records the error, and — when a
per-job error handler is registered — returns the handler's value as the
call's result; a throwing handler is logged and the original error is
re-thrown. -/
def Agency.execute (env : Env) (st : AgencyState) (jobId : String)
    (additionalInputs : Obj) : AgencyState × Except String Val :=
  match lookupKey st.activeJobs jobId with
  | none => (st, .error s!"No active job found with id {jobId}")
  | some job =>
    match Agency.executeAttempt env st jobId job additionalInputs with
    | (st₁, .ok results) => (st₁, .ok results)
    | (st₁, .error e) =>
        let jcur := (lookupKey st₁.activeJobs jobId).getD job
        let jfail := { jcur with status := .failed, error := some e }
        let st₂ := { st₁ with
          activeJobs := setEntry st₁.activeJobs jobId jfail,
          statusLog := st₁.statusLog ++ [(jobId, jcur.status, JobStatus.failed)] }
        let st₂ := emit st₂ "job:failed" [("jobId", .vstr jobId), ("error", .vstr e)]
        match lookupKey st₂.errorHandlers jobId with
        | some handler =>
            match handler e jfail with
            | .ok v => (st₂, .ok v)
            | .error _ => (st₂, .error e)
        | none => (st₂, .error e)

/-- `Agency.retryJob(jobId, maxRetries, additionalInputs)`. -/
def Agency.retryJob (env : Env) (st : AgencyState) (jobId : String) (maxRetries : Nat)
    (additionalInputs : Obj) : AgencyState × Except String Val :=
  match lookupKey st.activeJobs jobId with
  | none => (st, .error s!"No job found with id {jobId}")
  | some job =>
    if job.status ≠ JobStatus.failed then
      (st, .error s!"Job {jobId} is not in failed state")
    else if job.retryCount ≥ maxRetries then
      (st, .error s!"Maximum retry attempts ({maxRetries}) reached for job {jobId}")
    else
      let job₁ := { job with
        retryCount := job.retryCount + 1,
        status := .assigned,
        error := none }
      let st := { st with
        activeJobs := setEntry st.activeJobs jobId job₁,
        statusLog := st.statusLog ++ [(jobId, job.status, JobStatus.assigned)] }
      let st := emit st "job:retrying"
        [("jobId", .vstr jobId), ("retryCount", .vnum job₁.retryCount),
         ("maxRetries", .vnum maxRetries)]
      Agency.execute env st jobId additionalInputs

/-- `Agency.cleanupJob(jobId, keepResults)`. -/
def Agency.cleanupJob (st : AgencyState) (jobId : String) (keepResults : Bool) :
    AgencyState × Bool :=
  match lookupKey st.activeJobs jobId with
  | none => (st, false)
  | some job =>
    if job.status ≠ JobStatus.completed ∧ job.status ≠ JobStatus.failed then
      (st, false)
    else
      let results := if keepResults then job.results else none
      let st := { st with jobContexts := delEntry st.jobContexts jobId }
      let st := { st with activeJobs := delEntry st.activeJobs jobId }
      let st := emit st "job:cleaned"
        [("jobId", .vstr jobId), ("keepResults", .vbool keepResults)]
      let st := match results with
        | some v =>
            if keepResults && truthy v then
              let g := (lookupKey st.memoryScopes "global").getD emptyScope
              let w := g.remember s!"job_{jobId}_results"
                (.vobj [("results", v), ("cleanedAt", .vnum st.clock)])
              { st with memoryScopes := setEntry st.memoryScopes "global" w.1 }
            else st
        | none => st
      (st, true)

/-- `${job.error}` interpolation used in the workflow failure messages
(`job.error` is always a string at those points; after a retry reset it would
read `null`). -/
def Job.errDisplay (j : Job) : String := j.error.getD "null"

/-- Mutate the workflow record under `workflowId` (the original mutates
`this.workflows[workflowId]` in place). -/
def updateWf (st : AgencyState) (workflowId : String) (f : WorkflowRun → WorkflowRun) :
    AgencyState :=
  match lookupKey st.workflows workflowId with
  | none => st
  | some w => { st with workflows := setEntry st.workflows workflowId (f w) }

/-- Payload of the `workflow:step` event for one step definition. -/
def stepMeta (workflowId : String) (i : Nat) : Step → Obj
  | .seq jobId assigneeId assigneeType _ _ =>
      [("workflowId", .vstr workflowId), ("stepIndex", .vnum i),
       ("jobId", .vstr jobId), ("assigneeId", .vstr assigneeId),
       ("assigneeType", .vstr assigneeType), ("type", .vstr "sequential")]
  | .par branches =>
      [("workflowId", .vstr workflowId), ("stepIndex", .vnum i),
       ("jobId", .varr (branches.map (fun b => Val.vstr b.jobId))),
       ("assigneeId", .varr (branches.map (fun b => Val.vstr b.assigneeId))),
       ("assigneeType", .varr (branches.map (fun b => Val.vstr b.assigneeType))),
       ("type", .vstr "parallel")]
  | .cond jobId assigneeId assigneeType _ _ _ =>
      [("workflowId", .vstr workflowId), ("stepIndex", .vnum i),
       ("jobId", .vstr jobId), ("assigneeId", .vstr assigneeId),
       ("assigneeType", .vstr assigneeType), ("type", .vstr "conditional")]

/-- Sequential (default) branch of the step loop of `executeWorkflow`:
auto-create the Brief, assign, execute with
`{...inputs, previousStepData, workflowId, workflowStep}`, store the result,
and abort when the job ended `failed`. -/
def Agency.wfSeqStep (env : Env) (st : AgencyState) (workflowId scopeId : String)
    (i : Nat) (currentData : Val) (jobId assigneeId assigneeType : String)
    (inputs brief : Obj) : AgencyState × Except String Val :=
  let st := match lookupKey st.brief jobId with
    | some _ => st
    | none => (Agency.createBrief st jobId (jsMerge brief
        [("workflowId", .vstr workflowId), ("workflowStep", .vnum i)])).1
  match Agency.assignJob st jobId assigneeId assigneeType with
  | (st, .error e) => (st, .error e)
  | (st, .ok _) =>
    let stepInputs := jsMerge inputs
      [("previousStepData", currentData), ("workflowId", .vstr workflowId),
       ("workflowStep", .vnum i)]
    match Agency.execute env st jobId stepInputs with
    | (st, .error e) => (st, .error e)
    | (st, .ok res) =>
        let st := (rememberInScope st scopeId s!"step_{i}_results" res).1
        let st := updateWf st workflowId
          (fun w => { w with results := setEntry w.results jobId res })
        match Agency.getJob st jobId with
        | some j =>
            if j.status = JobStatus.failed then
              let msg := j.errDisplay
              (st, .error s!"Workflow step {i} (job {jobId}) failed: {msg}")
            else (st, .ok res)
        | none => (st, .ok res)

/-- Conditional branch of the step loop: evaluate the predicate over
`(currentData, workflowMemory)`; when false, record a skip marker and keep
`currentData`; when true, behave like a sequential step tagged
`isConditional`. -/
def Agency.wfCondStep (env : Env) (st : AgencyState) (workflowId scopeId : String)
    (i : Nat) (currentData : Val) (jobId assigneeId assigneeType : String)
    (inputs brief : Obj) (condition : Val → MemoryManager → Bool) :
    AgencyState × Except String Val :=
  let wm := (lookupKey st.memoryScopes scopeId).getD emptyScope
  if condition currentData wm then
    let st := match lookupKey st.brief jobId with
      | some _ => st
      | none => (Agency.createBrief st jobId (jsMerge brief
          [("workflowId", .vstr workflowId), ("workflowStep", .vnum i),
           ("isConditional", .vbool true)])).1
    match Agency.assignJob st jobId assigneeId assigneeType with
    | (st, .error e) => (st, .error e)
    | (st, .ok _) =>
      let stepInputs := jsMerge inputs
        [("previousStepData", currentData), ("workflowId", .vstr workflowId),
         ("workflowStep", .vnum i), ("isConditional", .vbool true)]
      match Agency.execute env st jobId stepInputs with
      | (st, .error e) => (st, .error e)
      | (st, .ok res) =>
          let st := (rememberInScope st scopeId s!"step_{i}_results" res).1
          let st := updateWf st workflowId
            (fun w => { w with results := setEntry w.results jobId res })
          match Agency.getJob st jobId with
          | some j =>
              if j.status = JobStatus.failed then
                let msg := j.errDisplay
                (st, .error s!"Conditional workflow step {i} (job {jobId}) failed: {msg}")
              else (st, .ok res)
          | none => (st, .ok res)
  else
    let st := (rememberInScope st scopeId s!"step_{i}_skipped" (.vbool true)).1
    let st := emit st "workflow:stepSkipped"
      [("workflowId", .vstr workflowId), ("stepIndex", .vnum i),
       ("reason", .vstr "condition-not-met")]
    (st, .ok currentData)

/-- Launch phase of a parallel step: the `jobId.map(...)` callback runs
synchronously for each branch in order — Brief creation, assignment and the
synchronous prefix of `execute` up to its `Runnable` call — so every branch
is started before any is awaited.  With the deterministic (pure) `Runnable`s
of the model each branch's settlement is computed at launch.  An exception
thrown by `assignJob` inside the callback escapes the `map` immediately. -/
def Agency.wfParLaunch (env : Env) (workflowId : String) (i : Nat) (currentData : Val) :
    AgencyState → List BranchDef → Nat →
    AgencyState × Except String (List (String × Except String Val))
  | st, [], _ => (st, .ok [])
  | st, b :: rest, index =>
      let st := match lookupKey st.brief b.jobId with
        | some _ => st
        | none => (Agency.createBrief st b.jobId (jsMerge b.brief
            [("workflowId", .vstr workflowId), ("workflowStep", .vnum i),
             ("isParallel", .vbool true), ("parallelIndex", .vnum index)])).1
      match Agency.assignJob st b.jobId b.assigneeId b.assigneeType with
      | (st, .error e) => (st, .error e)
      | (st, .ok _) =>
          let jobInputs := jsMerge b.inputs
            [("previousStepData", currentData), ("workflowId", .vstr workflowId),
             ("workflowStep", .vnum i), ("isParallel", .vbool true),
             ("parallelIndex", .vnum index)]
          let r := Agency.execute env st b.jobId jobInputs
          match Agency.wfParLaunch env workflowId i currentData r.1 rest (index + 1) with
          | (st, .error e) => (st, .error e)
          | (st, .ok others) => (st, .ok ((b.jobId, r.2) :: others))

/-- `Promise.all` join: rejects with the first rejection among the settled
branches (launch order — the model's branches settle in launch order),
without retracting the state mutations of the other branches. -/
def firstRejection : List (String × Except String Val) → Option String
  | [] => none
  | (_, .error e) :: _ => some e
  | (_, .ok _) :: rest => firstRejection rest

/-- The result-storing loop that follows a fulfilled `Promise.all`: store
each branch result, and abort when a branch's job ended `failed` (possible
when a per-job handler substituted a value). -/
def Agency.wfParStore (workflowId scopeId : String) (i : Nat) :
    AgencyState → List (String × Val) → Obj → AgencyState × Except String Obj
  | st, [], combined => (st, .ok combined)
  | st, (jid, r) :: rest, combined =>
      let combined := setEntry combined jid r
      let st := (rememberInScope st scopeId s!"step_{i}_job_{jid}_results" r).1
      let st := updateWf st workflowId
        (fun w => { w with results := setEntry w.results jid r })
      match Agency.getJob st jid with
      | some j =>
          if j.status = JobStatus.failed then
            let msg := j.errDisplay
            (st, .error s!"Parallel workflow step {i} (job {jid}) failed: {msg}")
          else Agency.wfParStore workflowId scopeId i st rest combined
      | none => Agency.wfParStore workflowId scopeId i st rest combined

/-- Parallel branch of the step loop. -/
def Agency.wfParStep (env : Env) (st : AgencyState) (workflowId scopeId : String)
    (i : Nat) (currentData : Val) (branches : List BranchDef) :
    AgencyState × Except String Val :=
  match Agency.wfParLaunch env workflowId i currentData st branches 0 with
  | (st, .error e) => (st, .error e)
  | (st, .ok settled) =>
      match firstRejection settled with
      | some e => (st, .error e)
      | none =>
          let fulfilled := settled.map (fun p =>
            (p.1, match p.2 with | .ok v => v | .error _ => Val.vundef))
          match Agency.wfParStore workflowId scopeId i st fulfilled [] with
          | (st, .error e) => (st, .error e)
          | (st, .ok combined) =>
              let st := (rememberInScope st scopeId s!"step_{i}_results" (.vobj combined)).1
              (st, .ok (.vobj combined))

/-- The step loop inside the `try` block of `executeWorkflow`: update
`currentStep`, emit `workflow:step`, dispatch on the step type, and thread
`currentData` to the next step. -/
def Agency.wfSteps (env : Env) (workflowId scopeId : String) :
    AgencyState → List Step → Nat → Val → AgencyState × Except String Val
  | st, [], _, currentData => (st, .ok currentData)
  | st, step :: rest, i, currentData =>
      let st := updateWf st workflowId (fun w => { w with currentStep := i })
      let st := emit st "workflow:step" (stepMeta workflowId i step)
      let r := match step with
        | .seq jobId assigneeId assigneeType inputs brief =>
            Agency.wfSeqStep env st workflowId scopeId i currentData
              jobId assigneeId assigneeType inputs brief
        | .par branches =>
            Agency.wfParStep env st workflowId scopeId i currentData branches
        | .cond jobId assigneeId assigneeType inputs brief condition =>
            Agency.wfCondStep env st workflowId scopeId i currentData
              jobId assigneeId assigneeType inputs brief condition
      match r with
      | (st, .error e) => (st, .error e)
      | (st, .ok nextData) => Agency.wfSteps env workflowId scopeId st rest (i + 1) nextData

/-- Resolution of the step loop's outcome inside `executeWorkflow`: on
success, mark the run `completed` and resolve with the completed-status
object; on an abort (the `catch` block), mark the run `failed`, record the
error, emit `workflow:failed`, and either return a registered workflow-level
error handler's value or resolve with the failed-status object (a throwing
handler is logged and the failed-status object returned).  `wf` is the
record as first created, used only as the (unreachable) default of the
record lookup. -/
def Agency.wfResolve (workflowId : String) (wf : WorkflowRun) :
    AgencyState × Except String Val → AgencyState × Except String Val
  | (stEnd, .ok _) =>
      let stEnd := updateWf stEnd workflowId
        (fun w => { w with status := .completed, completedAt := some stEnd.clock })
      let wfRec := (lookupKey stEnd.workflows workflowId).getD wf
      let stEnd := emit stEnd "workflow:completed"
        [("workflowId", .vstr workflowId), ("results", .vobj wfRec.results)]
      (stEnd, .ok (.vobj
        [("status", .vstr "completed"), ("workflowId", .vstr workflowId),
         ("results", .vobj wfRec.results)]))
  | (stEnd, .error e) =>
      let stEnd := updateWf stEnd workflowId
        (fun w => { w with status := .failed, error := some e })
      let wfRec := (lookupKey stEnd.workflows workflowId).getD wf
      let stEnd := emit stEnd "workflow:failed"
        [("workflowId", .vstr workflowId), ("error", .vstr e),
         ("step", .vnum wfRec.currentStep)]
      let failedObj : Val := .vobj
        [("status", .vstr "failed"), ("workflowId", .vstr workflowId),
         ("error", .vstr e), ("step", .vnum wfRec.currentStep),
         ("results", .vobj wfRec.results)]
      match lookupKey stEnd.workflowErrorHandlers workflowId with
      | some handler =>
          match handler e wfRec with
          | .ok v => (stEnd, .ok v)
          | .error _ => (stEnd, .ok failedObj)
      | none => (stEnd, .ok failedObj)

/-- `Agency.executeWorkflow(workflowDefinition, workflowId, initialData)`.
The WorkflowRun record is created and `workflow:started` emitted before the
dedicated memory scope is created; a scope-id collision therefore throws out
of the function before the `try` block, leaving the record `in_progress`. -/
def Agency.executeWorkflow (env : Env) (st : AgencyState)
    (workflowDefinition : List Step) (workflowId : String) (initialData : Obj) :
    AgencyState × Except String Val :=
  let wf : WorkflowRun :=
    { id := workflowId, definition := workflowDefinition, status := .in_progress,
      startedAt := st.clock, completedAt := none, currentStep := 0,
      results := [], error := none }
  let st := { st with workflows := setEntry st.workflows workflowId wf }
  let st := emit st "workflow:started"
    [("workflowId", .vstr workflowId), ("steps", .vnum workflowDefinition.length)]
  let scopeId := s!"workflow:{workflowId}"
  match Agency.createMemoryScope st scopeId with
  | (st, .error e) => (st, .error e)
  | (st, .ok _) =>
    let st := initialData.foldl (fun s p => (rememberInScope s scopeId p.1 p.2).1) st
    Agency.wfResolve workflowId wf
      (Agency.wfSteps env workflowId scopeId st workflowDefinition 0 (.vobj initialData))

/-- `planResponse.text || planResponse.output || planResponse`. -/
def responseTextOf (v : Val) : Val :=
  let t := match v with | .vobj fs => getField fs "text" | _ => Val.vundef
  if truthy t then t
  else
    let o := match v with | .vobj fs => getField fs "output" | _ => Val.vundef
    if truthy o then o else v

/-- The two-tier parsing recovery that `planJobsFromGoal` and
`replanFailedJob` both inline verbatim: (1) direct `JSON.parse` of the reply;
(2) on failure, `JSON.parse` of the first `[ \x7b ... \x7d ]`-shaped substring
found by the `/\[\s*\x7b.*\x7d\s*\]/s` regex; a matched-but-unparsable
substring fails with the wrapped message, no match re-throws the direct
parse error. -/
def twoTierParse (env : Env) (responseText : Val) : Except String Val :=
  match env.parseJson responseText with
  | .ok v => .ok v
  | .error directErr =>
      match env.matchArray responseText with
      | some matched =>
          match env.parseJson (.vstr matched) with
          | .ok v => .ok v
          | .error extractErr => .error s!"Failed to parse extracted JSON: {extractErr}"
      | none => .error directErr

/-- `typeof x` without the `Array.isArray` pre-check (JS arrays are
`"object"` under plain `typeof`). -/
def jsTypeofPlain : Val → String
  | .varr _ => "object"
  | v => jsTypeOf v

/-- The fixed built-in default task plan that `planJobsFromGoal` returns when
both parsing tiers fail. -/
def defaultTaskPlan : Val := .varr
  [.vobj [("name", .vstr "Research vacation options"),
          ("description", .vstr "Research and suggest vacation options based on user preferences"),
          ("inputs", .varr [.vstr "user_preferences"]),
          ("outputs", .varr [.vstr "vacation_suggestions"])],
   .vobj [("name", .vstr "Create vacation itinerary"),
          ("description", .vstr "Create a detailed itinerary for the vacation"),
          ("inputs", .varr [.vstr "vacation_suggestions", .vstr "user_preferences"]),
          ("outputs", .varr [.vstr "vacation_itinerary"])],
   .vobj [("name", .vstr "Book accommodations and transportation"),
          ("description", .vstr "Book accommodations and transportation for the vacation"),
          ("inputs", .varr [.vstr "vacation_itinerary", .vstr "user_preferences"]),
          ("outputs", .varr [.vstr "booking_confirmations"])]]

/-- The `for (const [i, task] of taskPlan.entries())` loop of
`planJobsFromGoal`: one Brief + Job per task, all assigned to the planning
agent. -/
def Agency.planTaskLoop (agentId goal : String) :
    AgencyState → List Val → Nat → List String →
    AgencyState × Except String (List String)
  | st, [], _, acc => (st, .ok acc)
  | st, task :: rest, i, acc =>
      let c := st.clock
      let jobId := s!"{agentId}-goal-{c}-{i}"
      let tobj := objView task
      let nameStr := jsDisplay (getField tobj "name")
      let brief : Obj :=
        [("goal", .vstr goal),
         ("taskName", getField tobj "name"),
         ("overview", getField tobj "description"),
         ("inputs", if truthy (getField tobj "inputs") then getField tobj "inputs"
                    else .varr []),
         ("expectedOutputs", if truthy (getField tobj "outputs") then getField tobj "outputs"
                             else .varr []),
         ("instructions", .vstr ("You are to complete the task \"" ++ nameStr ++
           "\" as part of the broader goal \"" ++ goal ++
           "\". Use the provided inputs and return the expected outputs."))]
      let st := (Agency.createBrief st jobId brief).1
      match Agency.assignJob st jobId agentId "agent" with
      | (st, .error e) => (st, .error e)
      | (st, .ok _) =>
          Agency.planTaskLoop agentId goal st rest (i + 1) (acc ++ [jobId])

/-- `Agency.planJobsFromGoal(agentId, goal)`.  On a double parse failure the
function returns the raw default task plan (not job ids) instead of
raising; on success it returns the array of created job ids.  The non-array
check sits outside the try/catch and raises. -/
def Agency.planJobsFromGoal (env : Env) (st : AgencyState) (agentId goal : String) :
    AgencyState × Except String Val :=
  if !(st.agents.contains agentId) then (st, .error s!"Agent {agentId} not found")
  else
    match env.runPlanner agentId (.planning goal) with
    | .error e => (st, .error e)
    | .ok planResponse =>
        let responseText := responseTextOf planResponse
        match twoTierParse env responseText with
        | .error _ => (st, .ok defaultTaskPlan)
        | .ok taskPlan =>
            match taskPlan with
            | .varr tasks =>
                match Agency.planTaskLoop agentId goal st tasks 0 [] with
                | (st, .error e) => (st, .error e)
                | (st, .ok jobIds) => (st, .ok (.varr (jobIds.map Val.vstr)))
            | other =>
                (st, .error ("Planning output was not a valid task array. Expected an array but got: "
                  ++ jsTypeofPlain other))

/-- The alternatives loop of `replanFailedJob`. -/
def Agency.replanTaskLoop (failedJobId errMsg assigneeId : String) (brief : Obj) :
    AgencyState → List Val → Nat → List String →
    AgencyState × Except String (List String)
  | st, [], _, acc => (st, .ok acc)
  | st, task :: rest, i, acc =>
      let c := st.clock
      let jobId := s!"{assigneeId}-replan-{c}-{i}"
      let tobj := objView task
      let taskNameStr := jsDisplay (getField brief "taskName")
      let newBrief : Obj :=
        [("goal", getField brief "goal"),
         ("taskName", getField tobj "name"),
         ("overview", getField tobj "description"),
         ("inputs", if truthy (getField tobj "inputs") then getField tobj "inputs"
                    else .varr []),
         ("expectedOutputs", if truthy (getField tobj "outputs") then getField tobj "outputs"
                             else .varr []),
         ("instructions", .vstr ("This is an alternative approach after the original task \"" ++
           taskNameStr ++ "\" failed with error: \"" ++ errMsg ++ "\".")),
         ("originalJobId", .vstr failedJobId)]
      let st := (Agency.createBrief st jobId newBrief).1
      match Agency.assignJob st jobId assigneeId "agent" with
      | (st, .error e) => (st, .error e)
      | (st, .ok _) =>
          Agency.replanTaskLoop failedJobId errMsg assigneeId brief st rest (i + 1)
            (acc ++ [jobId])

/-- `Agency.replanFailedJob(failedJobId, error)` — same two-tier parsing as
`planJobsFromGoal`, but a double failure raises instead of substituting a
fallback plan. -/
def Agency.replanFailedJob (env : Env) (st : AgencyState) (failedJobId errMsg : String) :
    AgencyState × Except String Val :=
  match Agency.getJob st failedJobId with
  | none => (st, .error s!"Job {failedJobId} not found")
  | some job =>
    if !(st.agents.contains job.assigneeId) then
      (st, .error s!"Agent {job.assigneeId} not found")
    else
      match lookupKey st.brief failedJobId with
      | none => (st, .error s!"Cannot replan job {failedJobId}: no goal context found")
      | some brief =>
        if !(truthy (getField brief "goal")) then
          (st, .error s!"Cannot replan job {failedJobId}: no goal context found")
        else
          match env.runPlanner job.assigneeId
              (.replanning (getField brief "goal") (getField brief "taskName")
                (getField brief "overview") errMsg) with
          | .error e => (st, .error e)
          | .ok replanResponse =>
              let responseText := responseTextOf replanResponse
              match twoTierParse env responseText with
              | .error e =>
                  (st, .error (s!"Failed to parse replanning response: {e}" ++
                    ". The model did not return valid JSON."))
              | .ok alternatives =>
                  match alternatives with
                  | .varr tasks =>
                      match Agency.replanTaskLoop failedJobId errMsg job.assigneeId brief
                          st tasks 0 [] with
                      | (st, .error e) => (st, .error e)
                      | (st, .ok newJobIds) => (st, .ok (.varr (newJobIds.map Val.vstr)))
                  | other =>
                      (st, .error ("Replanning output was not a valid task array. Expected an array but got: "
                        ++ jsTypeofPlain other))

/-- One external call of the job-lifecycle API, for quantifying over call
sequences. -/
inductive AgOp where
  | assign (jobId assigneeId assigneeType : String)
  | exec (jobId : String) (extra : Obj)
  | retry (jobId : String) (maxRetries : Nat) (extra : Obj)

def runOp (env : Env) (st : AgencyState) : AgOp → AgencyState
  | .assign jobId assigneeId assigneeType =>
      (Agency.assignJob st jobId assigneeId assigneeType).1
  | .exec jobId extra => (Agency.execute env st jobId extra).1
  | .retry jobId maxRetries extra => (Agency.retryJob env st jobId maxRetries extra).1

def runOps (env : Env) (st : AgencyState) (ops : List AgOp) : AgencyState :=
  ops.foldl (runOp env) st

/-! ## Verified properties -/

/-- A deterministic external world used by the concrete scenarios: team `t2`
echoes the merged inputs it receives, team `tfail` rejects with `boom`, every
other team resolves with `{a: 1}`; agents resolve with a fixed string; the
planner reply is unparsable prose (`JSON.parse` raises and the array regex
finds no match). -/
def okEnv : Env :=
  { runAgent := fun _ _ _ => .ok (.vstr "done")
    runTeam := fun id m _ =>
      if id = "t2" then .ok (.vobj m)
      else if id = "tfail" then .error "boom"
      else .ok (.vobj [("a", .vnum 1)])
    runPlanner := fun _ _ => .ok (.vstr "prose")
    parseJson := fun _ => .error "SyntaxError: Unexpected token"
    matchArray := fun _ => none }

/-- C10: calling `executeWorkflow` with a `workflowId` whose dedicated scope
`workflow:<workflowId>` already exists throws a "Memory scope ... already
exists" error before any step executes, and leaves the freshly created
WorkflowRun record with status `in_progress` and a null `error`; the only
event emitted is `workflow:started` (in particular no `workflow:failed`),
and no job is touched — the run never reaches a terminal status. -/
theorem C10_stale_scope_collision (env : Env) (st : AgencyState) (defn : List Step)
    (workflowId sid : String) (initialData : Obj) (m : MemoryManager)
    (hsid : sid = s!"workflow:{workflowId}")
    (hscope : lookupKey st.memoryScopes sid = some m) :
    ((Agency.executeWorkflow env st defn workflowId initialData).2 =
      .error s!"Memory scope {sid} already exists") ∧
    ((lookupKey (Agency.executeWorkflow env st defn workflowId initialData).1.workflows
        workflowId).map WorkflowRun.status = some WfStatus.in_progress) ∧
    ((lookupKey (Agency.executeWorkflow env st defn workflowId initialData).1.workflows
        workflowId).map WorkflowRun.error = some none) ∧
    ((Agency.executeWorkflow env st defn workflowId initialData).1.eventLog =
      st.eventLog ++
      [("workflow:started",
        [("workflowId", .vstr workflowId), ("steps", .vnum defn.length)])]) ∧
    ((Agency.executeWorkflow env st defn workflowId initialData).1.activeJobs =
      st.activeJobs) := by
  subst hsid
  simp [Agency.executeWorkflow, emit, Agency.createMemoryScope, hscope,
    lookupKey_setEntry]

def c10wst : AgencyState := (Agency.createMemoryScope (mkAgency [] []) "workflow:w").1

/-- Witness for C10: a concrete agency whose `workflow:w` scope already
exists. -/
theorem C10_stale_scope_collision_witness :
    ((Agency.executeWorkflow okEnv c10wst [] "w" []).2 =
      .error "Memory scope workflow:w already exists") ∧
    ((lookupKey (Agency.executeWorkflow okEnv c10wst [] "w" []).1.workflows
        "w").map WorkflowRun.status = some WfStatus.in_progress) ∧
    ((lookupKey (Agency.executeWorkflow okEnv c10wst [] "w" []).1.workflows
        "w").map WorkflowRun.error = some none) ∧
    ((Agency.executeWorkflow okEnv c10wst [] "w" []).1.eventLog =
      c10wst.eventLog ++
      [("workflow:started", [("workflowId", .vstr "w"), ("steps", .vnum 0)])]) ∧
    ((Agency.executeWorkflow okEnv c10wst [] "w" []).1.activeJobs =
      c10wst.activeJobs) := by
  have h := C10_stale_scope_collision okEnv c10wst [] "w" "workflow:w" [] emptyScope
    (by rfl) (by rfl)
  exact h

/-- C5: `retryJob(jobId, maxRetries, extraInputs)` is only legal when the
job's status is `failed` — on any other status it raises the "not in failed
state" error and changes nothing; with a failed job it raises when
`retryCount` has reached `maxRetries`; otherwise it increments `retryCount`,
resets the status to `assigned` (recording the `failed → assigned`
transition), clears the `error` field, emits `job:retrying`, and re-invokes
`execute` on the same job. -/
theorem C5_retryJob_spec (env : Env) (st : AgencyState) (jobId : String)
    (maxRetries : Nat) (extra : Obj) (job : Job)
    (hjob : lookupKey st.activeJobs jobId = some job) :
    (job.status ≠ JobStatus.failed →
      Agency.retryJob env st jobId maxRetries extra =
        (st, .error s!"Job {jobId} is not in failed state")) ∧
    (job.status = JobStatus.failed → job.retryCount ≥ maxRetries →
      Agency.retryJob env st jobId maxRetries extra =
        (st, .error s!"Maximum retry attempts ({maxRetries}) reached for job {jobId}")) ∧
    (job.status = JobStatus.failed → job.retryCount < maxRetries →
      ∀ stReset, stReset = { st with
        activeJobs := setEntry st.activeJobs jobId
          { job with retryCount := job.retryCount + 1, status := .assigned, error := none },
        statusLog := st.statusLog ++ [(jobId, job.status, JobStatus.assigned)],
        eventLog := st.eventLog ++ [("job:retrying",
          [("jobId", .vstr jobId), ("retryCount", .vnum (job.retryCount + 1)),
           ("maxRetries", .vnum maxRetries)])] } →
      Agency.retryJob env st jobId maxRetries extra =
        Agency.execute env stReset jobId extra) := by
  refine ⟨fun hne => ?_, fun hf hge => ?_, fun hf hlt stReset hreset => ?_⟩
  · simp [Agency.retryJob, hjob, hne]
  · simp [Agency.retryJob, hjob, hf, hge]
  · subst hreset
    have hnlt : ¬(job.retryCount ≥ maxRetries) := Nat.not_le.mpr hlt
    simp [Agency.retryJob, hjob, hf, hnlt, emit]

def dummyJob : Job :=
  { jobId := "", brief := [], assigneeId := "", assigneeType := "",
    status := .assigned, assignedAt := 0, startedAt := none, completedAt := none,
    results := none, error := none, retryCount := 0 }

/-- A concrete agency whose job `j` has completed. -/
def c5done : AgencyState :=
  runOps okEnv ((Agency.createBrief (mkAgency [] ["t1", "tfail"]) "j" []).1)
    [.assign "j" "t1" "team", .exec "j" []]

/-- A concrete agency whose job `j` has failed. -/
def c5fail : AgencyState :=
  runOps okEnv ((Agency.createBrief (mkAgency [] ["t1", "tfail"]) "j" []).1)
    [.assign "j" "tfail" "team", .exec "j" []]

def c5job : Job := (lookupKey c5fail.activeJobs "j").getD dummyJob

def c5reset : AgencyState := { c5fail with
  activeJobs := setEntry c5fail.activeJobs "j"
    { c5job with retryCount := c5job.retryCount + 1, status := .assigned, error := none },
  statusLog := c5fail.statusLog ++ [("j", c5job.status, JobStatus.assigned)],
  eventLog := c5fail.eventLog ++ [("job:retrying",
    [("jobId", .vstr "j"), ("retryCount", .vnum (c5job.retryCount + 1)),
     ("maxRetries", .vnum 3)])] }

def c5doneJob : Job := (lookupKey c5done.activeJobs "j").getD dummyJob

/-- Witness for C5: a completed job raises the "not in failed state" error, a
failed job with exhausted retries raises the maximum-retries error, and a
retryable failed job re-invokes `execute` on the reset state. -/
theorem C5_retryJob_spec_witness :
    (Agency.retryJob okEnv c5done "j" 3 [] =
      (c5done, .error "Job j is not in failed state")) ∧
    (Agency.retryJob okEnv c5fail "j" 0 [] =
      (c5fail, .error "Maximum retry attempts (0) reached for job j")) ∧
    (Agency.retryJob okEnv c5fail "j" 3 [] = Agency.execute okEnv c5reset "j" []) := by
  refine ⟨?_, ?_, ?_⟩
  · exact (C5_retryJob_spec okEnv c5done "j" 3 [] c5doneJob (by rfl)).1 (by decide)
  · exact (C5_retryJob_spec okEnv c5fail "j" 0 [] c5job (by rfl)).2.1
      (by decide) (by decide)
  · exact (C5_retryJob_spec okEnv c5fail "j" 3 [] c5job (by rfl)).2.2
      (by decide) (by decide) c5reset (by rfl)

/-- C8: for an existing job, `cleanupJob(jobId, keepResults)` returns `true`
iff the job's status immediately before the call is `completed` or `failed`
— in which case it removes the Job and its JobContext and, when
`keepResults` is set and results are present (truthy), archives them into
the global memory scope under `job_<jobId>_results` — and otherwise returns
`false` and changes no state. -/
theorem C8_cleanupJob_spec (st : AgencyState) (jobId : String) (keep : Bool) (job : Job)
    (hjob : lookupKey st.activeJobs jobId = some job) :
    ((job.status = JobStatus.completed ∨ job.status = JobStatus.failed) →
      (Agency.cleanupJob st jobId keep).2 = true ∧
      lookupKey (Agency.cleanupJob st jobId keep).1.activeJobs jobId = none ∧
      lookupKey (Agency.cleanupJob st jobId keep).1.jobContexts jobId = none ∧
      (∀ v, keep = true → job.results = some v → truthy v = true →
        lookupKey (Agency.cleanupJob st jobId keep).1.memoryScopes "global" =
          some (((lookupKey st.memoryScopes "global").getD emptyScope).remember
            s!"job_{jobId}_results"
            (.vobj [("results", v), ("cleanedAt", .vnum st.clock)])).1)) ∧
    (¬(job.status = JobStatus.completed ∨ job.status = JobStatus.failed) →
      Agency.cleanupJob st jobId keep = (st, false)) := by
  constructor
  · intro hcf
    have hguard : ¬(job.status ≠ JobStatus.completed ∧ job.status ≠ JobStatus.failed) := by
      rcases hcf with h | h <;> simp [h]
    refine ⟨?_, ?_, ?_, ?_⟩
    · simp only [Agency.cleanupJob, hjob, if_neg hguard, emit]
    · simp only [Agency.cleanupJob, hjob, if_neg hguard, emit]
      split <;> (try split) <;> (try simp [lookupKey_delEntry])
    · simp only [Agency.cleanupJob, hjob, if_neg hguard, emit]
      split <;> (try split) <;> (try simp [lookupKey_delEntry])
    · intro v hkeep hres htr
      subst hkeep
      simp only [Agency.cleanupJob, hjob, if_neg hguard, emit, hres, if_pos,
        Bool.true_and, htr, lookupKey_setEntry]
  · intro hnot
    have hguard : job.status ≠ JobStatus.completed ∧ job.status ≠ JobStatus.failed := by
      constructor <;> intro h <;> exact hnot (by simp [h])
    simp [Agency.cleanupJob, hjob, hguard]

/-- A concrete agency whose job `j` is still only assigned. -/
def c8assigned : AgencyState :=
  runOps okEnv ((Agency.createBrief (mkAgency [] ["t1"]) "j" []).1)
    [.assign "j" "t1" "team"]

/-- Witness for C8: cleaning a completed job succeeds, removes it and
archives its results into the global scope; cleaning an assigned job returns
`false` and changes nothing. -/
theorem C8_cleanupJob_spec_witness :
    ((Agency.cleanupJob c5done "j" true).2 = true ∧
      lookupKey (Agency.cleanupJob c5done "j" true).1.activeJobs "j" = none ∧
      lookupKey (Agency.cleanupJob c5done "j" true).1.jobContexts "j" = none ∧
      lookupKey (Agency.cleanupJob c5done "j" true).1.memoryScopes "global" =
        some (((lookupKey c5done.memoryScopes "global").getD emptyScope).remember
          "job_j_results"
          (.vobj [("results", .vobj [("a", .vnum 1)]),
                  ("cleanedAt", .vnum c5done.clock)])).1) ∧
    (Agency.cleanupJob c8assigned "j" true = (c8assigned, false)) := by
  have h₁ := C8_cleanupJob_spec c5done "j" true c5doneJob (by rfl)
  have h₂ := C8_cleanupJob_spec c8assigned "j" true
    ((lookupKey c8assigned.activeJobs "j").getD dummyJob) (by rfl)
  refine ⟨⟨(h₁.1 (by decide)).1, (h₁.1 (by decide)).2.1, (h₁.1 (by decide)).2.2.1, ?_⟩,
    h₂.2 (by decide)⟩
  exact (h₁.1 (by decide)).2.2.2 (.vobj [("a", .vnum 1)]) rfl (by rfl) (by decide)

/-- The 3-branch parallel workflow of C4: branch 2's `Runnable.run`
rejects with `boom`, branches 1 and 3 resolve. -/
def c4def : List Step :=
  [.par [{ jobId := "j1", assigneeId := "t1", assigneeType := "team",
           inputs := [], brief := [] },
         { jobId := "j2", assigneeId := "tfail", assigneeType := "team",
           inputs := [], brief := [] },
         { jobId := "j3", assigneeId := "t3", assigneeType := "team",
           inputs := [], brief := [] }]]

def c4run : AgencyState × Except String Val :=
  Agency.executeWorkflow okEnv (mkAgency [] ["t1", "tfail", "t3"]) c4def "w" []

/-- C4: in a 3-branch parallel workflow step where branch 2's `Runnable.run`
rejects (and no per-job error handler is registered), `executeWorkflow` ends
with the workflow's final status `failed` (both in the record and in the
resolved return object); all three branches were launched (jobs 1 and 3
completed, job 2 failed), and the workflow's results map — permitted but not
required to contain entries for branches 1 and 3 — is here empty because
`Promise.all` rejected before the storing loop ran. -/
theorem C4_parallel_branch_failure :
    ((lookupKey c4run.1.workflows "w").map WorkflowRun.status = some WfStatus.failed) ∧
    ((lookupKey c4run.1.workflows "w").map WorkflowRun.error = some (some "boom")) ∧
    (c4run.2 = .ok (.vobj
      [("status", .vstr "failed"), ("workflowId", .vstr "w"),
       ("error", .vstr "boom"), ("step", .vnum 0), ("results", .vobj [])])) ∧
    ((lookupKey c4run.1.activeJobs "j1").map Job.status = some JobStatus.completed) ∧
    ((lookupKey c4run.1.activeJobs "j2").map Job.status = some JobStatus.failed) ∧
    ((lookupKey c4run.1.activeJobs "j3").map Job.status = some JobStatus.completed) ∧
    ((lookupKey c4run.1.workflows "w").map WorkflowRun.results = some []) := by
  exact ⟨rfl, rfl, rfl, rfl, rfl, rfl, rfl⟩

theorem lookupKey_eq_none_of_not_mem {α : Type} (l : List (String × α)) (k : String)
    (h : k ∉ l.map Prod.fst) : lookupKey l k = none := by
  induction l with
  | nil => rfl
  | cons p rest ih =>
      obtain ⟨k₁, v₁⟩ := p
      simp only [List.map_cons, List.mem_cons] at h
      push_neg at h
      simp only [lookupKey]
      rw [if_neg (fun hh => h.1 hh.symm)]
      exact ih h.2

theorem lookup_jsMerge (b : List (String × Val)) : ∀ (a : Obj) (k : String),
    (b.map Prod.fst).Nodup →
    lookupKey (jsMerge a b) k =
      (match lookupKey b k with
       | some v => some v
       | none => lookupKey a k) := by
  induction b with
  | nil => intro a k _; rfl
  | cons p rest ih =>
      intro a k hnd
      obtain ⟨k₁, v₁⟩ := p
      simp only [List.map_cons, List.nodup_cons] at hnd
      have hstep : jsMerge a ((k₁, v₁) :: rest) = jsMerge (setEntry a k₁ v₁) rest := rfl
      rw [hstep, ih (setEntry a k₁ v₁) k hnd.2]
      by_cases hk : k₁ = k
      · subst hk
        have hr : lookupKey rest k₁ = none :=
          lookupKey_eq_none_of_not_mem rest k₁ hnd.1
        simp [lookupKey, hr, lookupKey_setEntry]
      · have hks : ¬(k = k₁) := fun hh => hk hh.symm
        simp [lookupKey, hk, lookupKey_setEntry, hks]

/-- The 2-step sequential workflow of C7: step 1 runs team `t1` (which
resolves to `{a: 1}`), step 2 runs team `t2`, which echoes back the merged
inputs object that `execute` passes to its `run`. -/
def c7def : List Step :=
  [.seq "j1" "t1" "team" [] [], .seq "j2" "t2" "team" [] []]

def c7run : AgencyState × Except String Val :=
  Agency.executeWorkflow okEnv (mkAgency [] ["t1", "t2"]) c7def "w" []

/-- The merged inputs object received by step 2's assignee in the C7
scenario, observed through the echoing team `t2`. -/
def c7m : Obj :=
  [("createdAt", .vnum 0), ("updatedAt", .vnum 0),
   ("previousStepData", .vobj [("a", .vnum 1)]),
   ("workflowId", .vstr "w"), ("workflowStep", .vnum 1)]

/-- C7: merged job inputs are built as
`jsMerge (jsMerge briefInputs jobContext) extraInputs` — Brief-derived
inputs, then the JobContext, then the step-supplied extra inputs, with later
sources overriding earlier ones on key collision (first conjunct, for any
objects with duplicate-free later sources); and in a 2-step sequential
workflow whose step 1 resolves to `{a: 1}`, the merged input passed to step
2's assignee contains `previousStepData` equal to `{a: 1}` (remaining
conjuncts, observed by letting step 2's team echo its input object back as
its result). -/
theorem C7_merged_inputs_previous_step :
    (∀ (bi ctx extra : Obj) (k : String),
      (ctx.map Prod.fst).Nodup → (extra.map Prod.fst).Nodup →
      lookupKey (jsMerge (jsMerge bi ctx) extra) k =
        (match lookupKey extra k with
         | some v => some v
         | none =>
           match lookupKey ctx k with
           | some v => some v
           | none => lookupKey bi k)) ∧
    ((lookupKey c7run.1.workflows "w").map WorkflowRun.status = some WfStatus.completed) ∧
    ((lookupKey c7run.1.workflows "w").map WorkflowRun.results =
      some [("j1", .vobj [("a", .vnum 1)]), ("j2", .vobj c7m)]) ∧
    (lookupKey c7m "previousStepData" = some (.vobj [("a", .vnum 1)])) := by
  refine ⟨fun bi ctx extra k hctx hextra => ?_, rfl, rfl, rfl⟩
  rw [lookup_jsMerge extra (jsMerge bi ctx) k hextra,
    lookup_jsMerge ctx bi k hctx]

/-- Witness for C7: the override order evaluated at concrete objects — the
extra-inputs value wins over JobContext and Brief inputs, the JobContext
wins over Brief inputs, and untouched Brief keys survive. -/
theorem C7_merged_inputs_previous_step_witness :
    (lookupKey (jsMerge (jsMerge [("x", .vnum 1), ("y", .vnum 2)]
        [("y", .vnum 3), ("z", .vnum 5)]) [("y", .vnum 4)]) "y" = some (.vnum 4)) ∧
    (lookupKey (jsMerge (jsMerge [("x", .vnum 1), ("y", .vnum 2)]
        [("y", .vnum 3), ("z", .vnum 5)]) [("y", .vnum 4)]) "z" = some (.vnum 5)) ∧
    (lookupKey (jsMerge (jsMerge [("x", .vnum 1), ("y", .vnum 2)]
        [("y", .vnum 3), ("z", .vnum 5)]) [("y", .vnum 4)]) "x" = some (.vnum 1)) := by
  have h := C7_merged_inputs_previous_step.1
  exact ⟨h [("x", .vnum 1), ("y", .vnum 2)] [("y", .vnum 3), ("z", .vnum 5)]
      [("y", .vnum 4)] "y" (by decide) (by decide),
    h [("x", .vnum 1), ("y", .vnum 2)] [("y", .vnum 3), ("z", .vnum 5)]
      [("y", .vnum 4)] "z" (by decide) (by decide),
    h [("x", .vnum 1), ("y", .vnum 2)] [("y", .vnum 3), ("z", .vnum 5)]
      [("y", .vnum 4)] "x" (by decide) (by decide)⟩

/-- C3: after `shareMemoryBetween(src, tgt, [k], "read-only")` for a key `k`
present in the source scope (and a target with no earlier read-only grants),
every subsequent `remember(k, v)` on the target scope is rejected — it
returns the caller-visible `refused` signal (JS `false`) and leaves the
stored value of `k` unchanged — while `remember(otherKey, v)` succeeds and
stores the value; `remember` never changes the installed read-only set, so
the rejection persists across any sequence of later writes. -/
theorem C3_readonly_share_frame (st : AgencyState) (srcId tgtId k : String)
    (src tgt tgt₂ : MemoryManager)
    (hsrc : lookupKey st.memoryScopes srcId = some src)
    (htgt : lookupKey st.memoryScopes tgtId = some tgt)
    (hk : (src.recall k).isUndef = false)
    (hfresh : tgt.roKeys = [])
    (htgt₂ : lookupKey
      ((Agency.shareMemoryBetween st srcId tgtId [k] "read-only").1).memoryScopes
      tgtId = some tgt₂) :
    (tgt₂.roKeys = [k]) ∧
    (∀ v, tgt₂.remember k v = (tgt₂, .refused)) ∧
    (∀ v, ((tgt₂.remember k v).1).recall k = tgt₂.recall k) ∧
    (∀ (m : MemoryManager) (k₂ : String) (v : Val),
      ((m.remember k₂ v).1).roKeys = m.roKeys) ∧
    (∀ k₂ v, k₂ ≠ k →
      (tgt₂.remember k₂ v).2 = .ok ∧ ((tgt₂.remember k₂ v).1).recall k₂ = v) := by
  have hshape : lookupKey
      ((Agency.shareMemoryBetween st srcId tgtId [k] "read-only").1).memoryScopes
      tgtId = some
        { keyValueStore := setEntry tgt.keyValueStore k (src.recall k),
          roKeys := [k] } := by
    simp only [Agency.shareMemoryBetween, hsrc, htgt]
    split
    all_goals
      simp [Agency.shareKeyStep, emit, hsrc, htgt, hk, hfresh, lookupKey_setEntry,
        MemoryManager.remember]
  rw [hshape] at htgt₂
  injection htgt₂ with htgt₂
  subst htgt₂
  refine ⟨rfl, fun v => ?_, fun v => ?_, fun m k₂ v => ?_, fun k₂ v hne => ?_⟩
  · simp [MemoryManager.remember]
  · simp [MemoryManager.remember]
  · unfold MemoryManager.remember
    split <;> rfl
  · constructor
    · simp [MemoryManager.remember, hne]
    · simp [MemoryManager.remember, hne, MemoryManager.recall, getField,
        lookupKey_setEntry]

def c3base : AgencyState :=
  let st := (Agency.createMemoryScope (mkAgency [] []) "A").1
  let st := (Agency.createMemoryScope st "T").1
  (rememberInScope st "A" "k" (.vstr "one")).1

def c3share : AgencyState :=
  (Agency.shareMemoryBetween c3base "A" "T" ["k"] "read-only").1

def c3src : MemoryManager := (lookupKey c3base.memoryScopes "A").getD emptyScope
def c3tgtBefore : MemoryManager := (lookupKey c3base.memoryScopes "T").getD emptyScope
def c3tgt : MemoryManager := (lookupKey c3share.memoryScopes "T").getD emptyScope

/-- Witness for C3: concrete scopes `A` (holding `k = "one"`) and `T`; after
the read-only share, writing `k` on `T` is refused and leaves the value,
while writing `other` succeeds. -/
theorem C3_readonly_share_frame_witness :
    (c3tgt.roKeys = ["k"]) ∧
    (c3tgt.remember "k" (.vstr "two") = (c3tgt, .refused)) ∧
    (((c3tgt.remember "k" (.vstr "two")).1).recall "k" = c3tgt.recall "k") ∧
    ((c3tgt.remember "other" (.vstr "x")).2 = .ok ∧
      ((c3tgt.remember "other" (.vstr "x")).1).recall "other" = .vstr "x") := by
  have h := C3_readonly_share_frame c3base "A" "T" "k" c3src c3tgtBefore c3tgt
    (by rfl) (by rfl) (by rfl) (by rfl) (by rfl)
  exact ⟨h.1, h.2.1 (.vstr "two"), h.2.2.1 (.vstr "two"),
    h.2.2.2.2 "other" (.vstr "x") (by decide)⟩

theorem Agency.updateJobContext_handlers (st : AgencyState) (jobId : String) (u : Obj) :
    ((Agency.updateJobContext st jobId u).1).errorHandlers = st.errorHandlers := by
  unfold Agency.updateJobContext
  split <;> simp [emit]

theorem Agency.executeAttempt_handlers (env : Env) (st : AgencyState) (jobId : String)
    (job : Job) (extra : Obj) :
    ((Agency.executeAttempt env st jobId job extra).1).errorHandlers =
      st.errorHandlers := by
  unfold Agency.executeAttempt
  simp only [emit]
  split
  · rfl
  · split
    · rfl
    · split
      · rfl
      · split
        · next stx e h =>
            have hfr := congrArg
              (fun p : AgencyState × Except String Obj => p.1.errorHandlers) h
            dsimp only at hfr
            rw [Agency.updateJobContext_handlers] at hfr
            exact hfr.symm
        · next stx r h =>
            have hfr := congrArg
              (fun p : AgencyState × Except String Obj => p.1.errorHandlers) h
            dsimp only at hfr
            rw [Agency.updateJobContext_handlers] at hfr
            exact hfr.symm

/-- C2: when the try block of `execute` fails (invocation or validation) and
a registered per-job error handler supplies a substitute value, the call
resolves with the handler's value but the job is left with status `failed`
and its `error` field populated with the original message; likewise, when
the step loop of `executeWorkflow` aborts and a workflow-level handler
supplies a substitute value, the call resolves with that value but the
workflow record keeps status `failed` and the recorded error — the handler
never resets either status. -/
theorem C2_handler_keeps_failed_status :
    (∀ (env : Env) (st : AgencyState) (jobId : String) (extra : Obj) (job : Job)
        (st₁ : AgencyState) (e : String) (handler : JobErrHandler) (v : Val),
      lookupKey st.activeJobs jobId = some job →
      Agency.executeAttempt env st jobId job extra = (st₁, .error e) →
      lookupKey st.errorHandlers jobId = some handler →
      (∀ msg j, handler msg j = .ok v) →
      (Agency.execute env st jobId extra).2 = .ok v ∧
      (lookupKey ((Agency.execute env st jobId extra).1).activeJobs jobId).map
        Job.status = some JobStatus.failed ∧
      (lookupKey ((Agency.execute env st jobId extra).1).activeJobs jobId).map
        Job.error = some (some e)) ∧
    (∀ (workflowId : String) (wf w₀ : WorkflowRun) (stEnd : AgencyState) (e : String)
        (handler : WfErrHandler) (v : Val),
      lookupKey stEnd.workflows workflowId = some w₀ →
      lookupKey stEnd.workflowErrorHandlers workflowId = some handler →
      (∀ msg w, handler msg w = .ok v) →
      (Agency.wfResolve workflowId wf (stEnd, .error e)).2 = .ok v ∧
      (lookupKey ((Agency.wfResolve workflowId wf (stEnd, .error e)).1).workflows
        workflowId).map WorkflowRun.status = some WfStatus.failed ∧
      (lookupKey ((Agency.wfResolve workflowId wf (stEnd, .error e)).1).workflows
        workflowId).map WorkflowRun.error = some (some e)) := by
  constructor
  · intro env st jobId extra job st₁ e handler v hjob hatt hhandler hconst
    have hfr := Agency.executeAttempt_handlers env st jobId job extra
    rw [hatt] at hfr
    dsimp only at hfr
    simp only [Agency.execute, hjob, hatt, emit]
    simp [hfr, hhandler, hconst, lookupKey_setEntry]
  · intro workflowId wf w₀ stEnd e handler v hw hhandler hconst
    simp only [Agency.wfResolve, updateWf, hw, emit]
    simp [hhandler, hconst, lookupKey_setEntry]

def c2handler : JobErrHandler := fun _ _ => .ok (.vstr "sub")

/-- A concrete agency whose job `j` is assigned to the rejecting team
`tfail` and has a substitute-returning error handler registered. -/
def c2st : AgencyState :=
  Agency.setErrorHandler
    (runOps okEnv ((Agency.createBrief (mkAgency [] ["tfail"]) "j" []).1)
      [.assign "j" "tfail" "team"]) "j" c2handler

def c2job : Job := (lookupKey c2st.activeJobs "j").getD dummyJob

def c2att : AgencyState × Except String Val :=
  Agency.executeAttempt okEnv c2st "j" c2job []

def c2whandler : WfErrHandler := fun _ _ => .ok (.vstr "wsub")

def c2wf : WorkflowRun :=
  { id := "w", definition := [], status := .in_progress, startedAt := 0,
    completedAt := none, currentStep := 0, results := [], error := none }

def c2wst : AgencyState :=
  { mkAgency [] [] with
    workflows := [("w", c2wf)],
    workflowErrorHandlers := [("w", c2whandler)] }

/-- Witness for C2: concrete failing job and aborting workflow, each with a
substitute-returning handler — the substitute becomes the result while the
statuses stay `failed` with the original error recorded. -/
theorem C2_handler_keeps_failed_status_witness :
    ((Agency.execute okEnv c2st "j" []).2 = .ok (.vstr "sub") ∧
     (lookupKey ((Agency.execute okEnv c2st "j" []).1).activeJobs "j").map
       Job.status = some JobStatus.failed ∧
     (lookupKey ((Agency.execute okEnv c2st "j" []).1).activeJobs "j").map
       Job.error = some (some "boom")) ∧
    ((Agency.wfResolve "w" c2wf (c2wst, .error "boom")).2 = .ok (.vstr "wsub") ∧
     (lookupKey ((Agency.wfResolve "w" c2wf (c2wst, .error "boom")).1).workflows
       "w").map WorkflowRun.status = some WfStatus.failed ∧
     (lookupKey ((Agency.wfResolve "w" c2wf (c2wst, .error "boom")).1).workflows
       "w").map WorkflowRun.error = some (some "boom")) := by
  refine ⟨?_, ?_⟩
  · exact C2_handler_keeps_failed_status.1 okEnv c2st "j" [] c2job c2att.1 "boom"
      c2handler (.vstr "sub") (by rfl) (by rfl) (by rfl) (fun _ _ => rfl)
  · exact C2_handler_keeps_failed_status.2 "w" c2wf c2wf c2wst "boom" c2whandler
      (.vstr "wsub") (by rfl) (by rfl) (fun _ _ => rfl)

/-- C6: when the planner's reply is unparsable by both recovery tiers —
direct `JSON.parse`, then regex extraction of the first array-shaped
substring — `planJobsFromGoal` returns the fixed built-in 3-task default
plan instead of raising (first conjunct), whereas `replanFailedJob` under
the same condition raises the parse-failure error rather than substituting
a fallback: second conjunct for a reply with no array-shaped substring,
third conjunct for an extracted substring that still fails to parse. -/
theorem C6_plan_fallback_replan_raises :
    (∀ (env : Env) (st : AgencyState) (agentId goal : String) (reply : Val)
        (d : String),
      st.agents.contains agentId = true →
      env.runPlanner agentId (.planning goal) = .ok reply →
      env.parseJson (responseTextOf reply) = .error d →
      (∀ s, env.matchArray (responseTextOf reply) = some s →
        ∃ d₂, env.parseJson (.vstr s) = .error d₂) →
      Agency.planJobsFromGoal env st agentId goal = (st, .ok defaultTaskPlan)) ∧
    (∀ (env : Env) (st : AgencyState) (failedJobId errMsg : String) (job : Job)
        (brief : Obj) (reply : Val) (d : String),
      Agency.getJob st failedJobId = some job →
      st.agents.contains job.assigneeId = true →
      lookupKey st.brief failedJobId = some brief →
      truthy (getField brief "goal") = true →
      env.runPlanner job.assigneeId
        (.replanning (getField brief "goal") (getField brief "taskName")
          (getField brief "overview") errMsg) = .ok reply →
      env.parseJson (responseTextOf reply) = .error d →
      env.matchArray (responseTextOf reply) = none →
      Agency.replanFailedJob env st failedJobId errMsg =
        (st, .error (s!"Failed to parse replanning response: {d}" ++
          ". The model did not return valid JSON."))) ∧
    (∀ (env : Env) (st : AgencyState) (failedJobId errMsg : String) (job : Job)
        (brief : Obj) (reply : Val) (d : String) (s inner : String) (d₂ : String),
      Agency.getJob st failedJobId = some job →
      st.agents.contains job.assigneeId = true →
      lookupKey st.brief failedJobId = some brief →
      truthy (getField brief "goal") = true →
      env.runPlanner job.assigneeId
        (.replanning (getField brief "goal") (getField brief "taskName")
          (getField brief "overview") errMsg) = .ok reply →
      env.parseJson (responseTextOf reply) = .error d →
      env.matchArray (responseTextOf reply) = some s →
      env.parseJson (.vstr s) = .error d₂ →
      inner = s!"Failed to parse extracted JSON: {d₂}" →
      Agency.replanFailedJob env st failedJobId errMsg =
        (st, .error (s!"Failed to parse replanning response: {inner}" ++
          ". The model did not return valid JSON."))) := by
  refine ⟨?_, ?_, ?_⟩
  · intro env st agentId goal reply d hagent hrun hdirect htier2
    have hmem : agentId ∈ st.agents := by simpa using hagent
    rcases hmap : env.matchArray (responseTextOf reply) with _ | s
    · simp [Agency.planJobsFromGoal, hmem, hrun, twoTierParse, hdirect, hmap]
    · obtain ⟨d₂, hd₂⟩ := htier2 s hmap
      simp [Agency.planJobsFromGoal, hmem, hrun, twoTierParse, hdirect, hmap, hd₂]
  · intro env st failedJobId errMsg job brief reply d hjob hagent hbrief hgoal
      hrun hdirect hmap
    have hmem : job.assigneeId ∈ st.agents := by simpa using hagent
    simp [Agency.replanFailedJob, hjob, hmem, hbrief, hgoal, hrun,
      twoTierParse, hdirect, hmap]
  · intro env st failedJobId errMsg job brief reply d s inner d₂ hjob hagent
      hbrief hgoal hrun hdirect hmap hd₂ hinner
    subst hinner
    have hmem : job.assigneeId ∈ st.agents := by simpa using hagent
    simp [Agency.replanFailedJob, hjob, hmem, hbrief, hgoal, hrun,
      twoTierParse, hdirect, hmap, hd₂]

def c6pst : AgencyState := mkAgency ["a1"] []

/-- A concrete agency with a goal-tagged failed-job brief for replanning. -/
def c6rst : AgencyState :=
  (Agency.assignJob
    ((Agency.createBrief (mkAgency ["a1"] [])
      "jf" [("goal", .vstr "g"), ("taskName", .vstr "t"), ("overview", .vstr "o")]).1)
    "jf" "a1" "agent").1

def c6rjob : Job := (lookupKey c6rst.activeJobs "jf").getD dummyJob

def c6rbrief : Obj := (lookupKey c6rst.brief "jf").getD []

/-- Like `okEnv`, but the array regex finds a match that still fails to
parse. -/
def c6env2 : Env := { okEnv with matchArray := fun _ => some "[ \x7b x \x7d ]" }

/-- Witness for C6: with unparsable planner prose, `planJobsFromGoal`
returns the default 3-task plan while `replanFailedJob` raises — both when
no array-shaped substring exists and when an extracted substring fails the
second parse. -/
theorem C6_plan_fallback_replan_raises_witness :
    (Agency.planJobsFromGoal okEnv c6pst "a1" "goal" = (c6pst, .ok defaultTaskPlan)) ∧
    (Agency.replanFailedJob okEnv c6rst "jf" "boom" =
      (c6rst, .error "Failed to parse replanning response: SyntaxError: Unexpected token. The model did not return valid JSON.")) ∧
    (Agency.replanFailedJob c6env2 c6rst "jf" "boom" =
      (c6rst, .error "Failed to parse replanning response: Failed to parse extracted JSON: SyntaxError: Unexpected token. The model did not return valid JSON.")) := by
  refine ⟨?_, ?_, ?_⟩
  · exact C6_plan_fallback_replan_raises.1 okEnv c6pst "a1" "goal" (.vstr "prose")
      "SyntaxError: Unexpected token" (by rfl) (by rfl) (by rfl)
      (fun s hs => nomatch hs)
  · exact C6_plan_fallback_replan_raises.2.1 okEnv c6rst "jf" "boom" c6rjob
      c6rbrief (.vstr "prose") "SyntaxError: Unexpected token" (by rfl) (by rfl)
      (by rfl) (by rfl) (by rfl) (by rfl) (by rfl)
  · exact C6_plan_fallback_replan_raises.2.2 c6env2 c6rst "jf" "boom" c6rjob
      c6rbrief (.vstr "prose") "SyntaxError: Unexpected token" "[ \x7b x \x7d ]"
      "Failed to parse extracted JSON: SyntaxError: Unexpected token"
      "SyntaxError: Unexpected token" (by rfl) (by rfl) (by rfl) (by rfl)
      (by rfl) (by rfl) (by rfl) (by rfl) (by rfl)

/-- Concrete scopes for the C9 counterexample: `A` holds `k = "one"`, `B`
holds `k = "two"`, `T` is empty. -/
def c9a : AgencyState :=
  let st := (Agency.createMemoryScope (mkAgency [] []) "A").1
  let st := (Agency.createMemoryScope st "T").1
  let st := (Agency.createMemoryScope st "B").1
  let st := (rememberInScope st "A" "k" (.vstr "one")).1
  (rememberInScope st "B" "k" (.vstr "two")).1

def c9afterRO : AgencyState :=
  (Agency.shareMemoryBetween c9a "A" "T" ["k"] "read-only").1

def c9afterRW : AgencyState :=
  (Agency.shareMemoryBetween c9afterRO "B" "T" ["k"] "read-write").1

def c9afterMiss : AgencyState :=
  (Agency.shareMemoryBetween c9a "A" "T" ["missing"] "read-only").1

/-- Counterexample to C9 as stated: after `A → T` shares `k` read-only, a
second grant `B → T` of the same key does *not* copy `B`'s current value
(the target's wrapped `remember` silently refuses, leaving `"one"` instead
of `"two"`), yet the AccessGrant is still overwritten to claim source `B`;
and for a listed key absent from the source scope no AccessGrant is
recorded at all. -/
theorem C9_share_copy_counterexample :
    (((lookupKey c9afterRW.memoryScopes "T").getD emptyScope).recall "k" =
      .vstr "one") ∧
    (((lookupKey c9afterRW.memoryScopes "B").getD emptyScope).recall "k" =
      .vstr "two") ∧
    (Val.vstr "one" ≠ Val.vstr "two") ∧
    (Agency.getMemoryAccessInfo c9afterRW "T" "k" =
      some { sourceScope := "B", accessMode := "read-write", sharedAt := 0 }) ∧
    (Agency.getMemoryAccessInfo c9afterMiss "T" "missing" = none) := by
  refine ⟨rfl, rfl, ?_, rfl, rfl⟩
  intro h
  exact absurd (Val.vstr.inj h) (by decide)

theorem shareKeyStep_clock (s : AgencyState) (srcId tgtId mode key : String) :
    (Agency.shareKeyStep s srcId tgtId mode key).clock = s.clock := by
  simp only [Agency.shareKeyStep, MemoryManager.remember, MemoryManager.recall,
    getField]
  split_ifs <;> rfl

theorem shareKeyStep_frame (s : AgencyState) (srcId tgtId mode key : String)
    (sid : String) (hne : sid ≠ tgtId) :
    lookupKey (Agency.shareKeyStep s srcId tgtId mode key).memoryScopes sid =
      lookupKey s.memoryScopes sid := by
  simp only [Agency.shareKeyStep, MemoryManager.remember, MemoryManager.recall,
    getField]
  split_ifs <;> simp [lookupKey_setEntry, hne]

theorem shareKeyStep_other_key (s : AgencyState) (srcId tgtId mode key k : String)
    (hk : k ≠ key) :
    (((lookupKey (Agency.shareKeyStep s srcId tgtId mode key).memoryScopes
        tgtId).getD emptyScope).recall k =
      ((lookupKey s.memoryScopes tgtId).getD emptyScope).recall k) ∧
    (((lookupKey (Agency.shareKeyStep s srcId tgtId mode key).memoryScopes
        tgtId).getD emptyScope).roKeys.contains k =
      ((lookupKey s.memoryScopes tgtId).getD emptyScope).roKeys.contains k) ∧
    (lookupKey ((lookupKey (Agency.shareKeyStep s srcId tgtId mode key).memoryAccessControl
        tgtId).getD []) k =
      lookupKey ((lookupKey s.memoryAccessControl tgtId).getD []) k) := by
  simp only [Agency.shareKeyStep, MemoryManager.remember, MemoryManager.recall,
    getField]
  split_ifs <;> simp [lookupKey_setEntry, getField, hk, MemoryManager.recall]

theorem shareKeyStep_hits (s : AgencyState) (srcId tgtId mode key : String)
    (src : MemoryManager)
    (hsrc : lookupKey s.memoryScopes srcId = some src)
    (hv : (src.recall key).isUndef = false)
    (hro : ((lookupKey s.memoryScopes tgtId).getD emptyScope).roKeys.contains key
      = false) :
    (((lookupKey (Agency.shareKeyStep s srcId tgtId mode key).memoryScopes
        tgtId).getD emptyScope).recall key = src.recall key) ∧
    (lookupKey ((lookupKey (Agency.shareKeyStep s srcId tgtId mode key).memoryAccessControl
        tgtId).getD []) key =
      some { sourceScope := srcId, accessMode := mode, sharedAt := s.clock }) := by
  have hv₂ := hv
  have hro₂ := hro
  simp only [MemoryManager.recall, getField] at hv₂
  simp at hro₂
  simp only [Agency.shareKeyStep, MemoryManager.remember, MemoryManager.recall,
    getField, hsrc, Option.getD_some]
  split_ifs <;>
    simp_all [lookupKey_setEntry, getField, MemoryManager.recall]

theorem shareLoop_clock (srcId tgtId mode : String) :
    ∀ (ks : List String) (s : AgencyState),
    (ks.foldl (fun a k => Agency.shareKeyStep a srcId tgtId mode k) s).clock =
      s.clock := by
  intro ks
  induction ks with
  | nil => intro s; rfl
  | cons kk rest ih =>
      intro s
      simp only [List.foldl_cons]
      rw [ih, shareKeyStep_clock]

theorem shareLoop_frame (srcId tgtId mode sid : String) (hne : sid ≠ tgtId) :
    ∀ (ks : List String) (s : AgencyState),
    lookupKey
      ((ks.foldl (fun a k => Agency.shareKeyStep a srcId tgtId mode k) s)).memoryScopes
      sid = lookupKey s.memoryScopes sid := by
  intro ks
  induction ks with
  | nil => intro s; rfl
  | cons kk rest ih =>
      intro s
      simp only [List.foldl_cons]
      rw [ih, shareKeyStep_frame _ _ _ _ _ _ hne]

theorem shareLoop_other (srcId tgtId mode k : String) :
    ∀ (ks : List String), (∀ kk ∈ ks, k ≠ kk) → ∀ (s : AgencyState),
    (((lookupKey
        ((ks.foldl (fun a kk => Agency.shareKeyStep a srcId tgtId mode kk) s)).memoryScopes
        tgtId).getD emptyScope).recall k =
      ((lookupKey s.memoryScopes tgtId).getD emptyScope).recall k) ∧
    (((lookupKey
        ((ks.foldl (fun a kk => Agency.shareKeyStep a srcId tgtId mode kk) s)).memoryScopes
        tgtId).getD emptyScope).roKeys.contains k =
      ((lookupKey s.memoryScopes tgtId).getD emptyScope).roKeys.contains k) ∧
    (lookupKey ((lookupKey
        ((ks.foldl (fun a kk => Agency.shareKeyStep a srcId tgtId mode kk) s)).memoryAccessControl
        tgtId).getD []) k =
      lookupKey ((lookupKey s.memoryAccessControl tgtId).getD []) k) := by
  intro ks
  induction ks with
  | nil => intro _ s; exact ⟨rfl, rfl, rfl⟩
  | cons kk rest ih =>
      intro hall s
      have hk : k ≠ kk := hall kk (List.mem_cons_self kk rest)
      have hstep := shareKeyStep_other_key s srcId tgtId mode kk k hk
      have hrest := ih (fun r hr => hall r (List.mem_cons_of_mem kk hr))
        (Agency.shareKeyStep s srcId tgtId mode kk)
      simp only [List.foldl_cons]
      exact ⟨hrest.1.trans hstep.1, hrest.2.1.trans hstep.2.1,
        hrest.2.2.trans hstep.2.2⟩

theorem shareLoop_hits (srcId tgtId mode : String) (hsep : srcId ≠ tgtId) :
    ∀ (ks : List String) (s : AgencyState) (k : String) (src : MemoryManager),
    ks.Nodup → k ∈ ks →
    lookupKey s.memoryScopes srcId = some src →
    (src.recall k).isUndef = false →
    ((lookupKey s.memoryScopes tgtId).getD emptyScope).roKeys.contains k = false →
    (((lookupKey
        ((ks.foldl (fun a kk => Agency.shareKeyStep a srcId tgtId mode kk) s)).memoryScopes
        tgtId).getD emptyScope).recall k = src.recall k) ∧
    (lookupKey ((lookupKey
        ((ks.foldl (fun a kk => Agency.shareKeyStep a srcId tgtId mode kk) s)).memoryAccessControl
        tgtId).getD []) k =
      some { sourceScope := srcId, accessMode := mode, sharedAt := s.clock }) := by
  intro ks
  induction ks with
  | nil => intro s k src _ hmem; cases hmem
  | cons kk rest ih =>
      intro s k src hnd hmem hsrc hv hro
      simp only [List.foldl_cons]
      rcases List.mem_cons.mp hmem with heq | hmem₂
      · subst heq
        have hstep := shareKeyStep_hits s srcId tgtId mode k src hsrc hv hro
        have hnotin : ∀ r ∈ rest, k ≠ r := by
          intro r hr heq₂
          exact (List.nodup_cons.mp hnd).1 (heq₂ ▸ hr)
        have hpres := shareLoop_other srcId tgtId mode k rest hnotin
          (Agency.shareKeyStep s srcId tgtId mode k)
        exact ⟨hpres.1.trans hstep.1, hpres.2.2.trans hstep.2⟩
      · have hnd₂ : rest.Nodup := (List.nodup_cons.mp hnd).2
        have hne_k : k ≠ kk := by
          intro h
          exact (List.nodup_cons.mp hnd).1 (h ▸ hmem₂)
        have hstep := shareKeyStep_other_key s srcId tgtId mode kk k hne_k
        have hsrc₂ : lookupKey
            (Agency.shareKeyStep s srcId tgtId mode kk).memoryScopes srcId =
            some src := by
          rw [shareKeyStep_frame s srcId tgtId mode kk srcId hsep]
          exact hsrc
        have hro₂ : ((lookupKey
            (Agency.shareKeyStep s srcId tgtId mode kk).memoryScopes tgtId).getD
            emptyScope).roKeys.contains k = false := by
          rw [hstep.2.1]
          exact hro
        have hres := ih (Agency.shareKeyStep s srcId tgtId mode kk) k src hnd₂
          hmem₂ hsrc₂ hv hro₂
        rw [shareKeyStep_clock] at hres
        exact hres

/-- C9 (amended): for distinct scopes, `shareMemoryBetween` copies the
current value of each shared key from the source into the target as a
snapshot and records one AccessGrant `(source scope id, access mode, share
timestamp)` per key, retrievable via `getMemoryAccessInfo` — *provided* the
key is present in the source scope and is not already read-only in the
target from an earlier grant (otherwise the wrapped `remember` silently
refuses the copy while the grant is still recorded, and absent keys record
no grant at all; see the counterexample).  Later `remember` calls on the
source scope never change the target's copy. -/
theorem C9_amended_share_snapshot (st sh : AgencyState) (srcId tgtId mode : String)
    (keys : List String) (src tgt : MemoryManager) (k : String)
    (hsep : srcId ≠ tgtId)
    (hsrc : lookupKey st.memoryScopes srcId = some src)
    (htgt : lookupKey st.memoryScopes tgtId = some tgt)
    (hks : (if keys.length > 0 then keys else src.keyValueStore.map Prod.fst).Nodup)
    (hk : k ∈ (if keys.length > 0 then keys else src.keyValueStore.map Prod.fst))
    (hv : (src.recall k).isUndef = false)
    (hro : tgt.roKeys.contains k = false)
    (hsh : sh = (Agency.shareMemoryBetween st srcId tgtId keys mode).1) :
    (((lookupKey sh.memoryScopes tgtId).getD emptyScope).recall k = src.recall k) ∧
    (Agency.getMemoryAccessInfo sh tgtId k =
      some { sourceScope := srcId, accessMode := mode, sharedAt := st.clock }) ∧
    (∀ k₂ v₂, lookupKey ((rememberInScope sh srcId k₂ v₂).1).memoryScopes tgtId =
      lookupKey sh.memoryScopes tgtId) := by
  have hsnap : ∀ (s : AgencyState) (k₂ : String) (v₂ : Val),
      lookupKey ((rememberInScope s srcId k₂ v₂).1).memoryScopes tgtId =
        lookupKey s.memoryScopes tgtId := by
    intro s k₂ v₂
    unfold rememberInScope
    rcases hs : lookupKey s.memoryScopes srcId with _ | m
    · rfl
    · have hts : ¬(tgtId = srcId) := fun h => hsep h.symm
      simp [lookupKey_setEntry, hts]
  have hinfo : ∀ (s : AgencyState) (grant : AccessGrant),
      lookupKey ((lookupKey s.memoryAccessControl tgtId).getD []) k = some grant →
      Agency.getMemoryAccessInfo s tgtId k = some grant := by
    intro s grant hg
    unfold Agency.getMemoryAccessInfo
    rcases hc : lookupKey s.memoryAccessControl tgtId with _ | ctrl
    · rw [hc] at hg
      simp [lookupKey] at hg
    · rw [hc] at hg
      simpa using hg
  have hgen : ∀ (st₀ : AgencyState),
      lookupKey st₀.memoryScopes srcId = some src →
      lookupKey st₀.memoryScopes tgtId = some tgt →
      st₀.clock = st.clock →
      (((lookupKey
          ((if keys.length > 0 then keys else src.keyValueStore.map Prod.fst).foldl
            (fun a kk => Agency.shareKeyStep a srcId tgtId mode kk) st₀).memoryScopes
          tgtId).getD emptyScope).recall k = src.recall k) ∧
      (lookupKey ((lookupKey
          ((if keys.length > 0 then keys else src.keyValueStore.map Prod.fst).foldl
            (fun a kk => Agency.shareKeyStep a srcId tgtId mode kk) st₀).memoryAccessControl
          tgtId).getD []) k =
        some { sourceScope := srcId, accessMode := mode, sharedAt := st.clock }) := by
    intro st₀ h1 h2 h3
    have hro₀ : ((lookupKey st₀.memoryScopes tgtId).getD emptyScope).roKeys.contains k
        = false := by
      rw [h2]
      exact hro
    have hloop := shareLoop_hits srcId tgtId mode hsep
      (if keys.length > 0 then keys else src.keyValueStore.map Prod.fst)
      st₀ k src hks hk h1 hv hro₀
    rw [h3] at hloop
    exact hloop
  subst hsh
  simp only [Agency.shareMemoryBetween, hsrc, htgt]
  rcases hctrl : lookupKey st.memoryAccessControl tgtId with _ | ctrl0
  · simp only [hctrl]
    have h := hgen
      { st with memoryAccessControl := setEntry st.memoryAccessControl tgtId [] }
      hsrc htgt rfl
    exact ⟨h.1, hinfo _ _ h.2, fun k₂ v₂ => hsnap _ k₂ v₂⟩
  · simp only [hctrl]
    have h := hgen st hsrc htgt rfl
    exact ⟨h.1, hinfo _ _ h.2, fun k₂ v₂ => hsnap _ k₂ v₂⟩

def c9srcA : MemoryManager := (lookupKey c9a.memoryScopes "A").getD emptyScope
def c9tgtT : MemoryManager := (lookupKey c9a.memoryScopes "T").getD emptyScope

/-- Witness for the amended C9: the first (unobstructed) share `A → T` of
`k` copies the value, records the grant, and later writes to `A` leave `T`'s
entry untouched. -/
theorem C9_amended_share_snapshot_witness :
    (((lookupKey c9afterRO.memoryScopes "T").getD emptyScope).recall "k" =
      .vstr "one") ∧
    (Agency.getMemoryAccessInfo c9afterRO "T" "k" =
      some { sourceScope := "A", accessMode := "read-only", sharedAt := 0 }) ∧
    (lookupKey ((rememberInScope c9afterRO "A" "k" (.vstr "later")).1).memoryScopes
        "T" = lookupKey c9afterRO.memoryScopes "T") := by
  have h := C9_amended_share_snapshot c9a c9afterRO "A" "T" "read-only" ["k"]
    c9srcA c9tgtT "k" (by decide) (by rfl) (by rfl) (by decide) (by decide)
    (by rfl) (by rfl) (by rfl)
  exact ⟨h.1, h.2.1, h.2.2 "k" (.vstr "later")⟩

/-- The edge set claimed by the specification: `assigned → in_progress`,
`in_progress → completed/failed`, `failed → assigned` (retry). -/
def claimedEdge : JobStatus → JobStatus → Bool
  | .assigned, .in_progress => true
  | .in_progress, .completed => true
  | .in_progress, .failed => true
  | .failed, .assigned => true
  | _, _ => false

/-- The edge set actually realisable on the code: the claimed edges plus
`completed → in_progress` and `failed → in_progress`, reachable by calling
`execute` directly on a terminal job (the method has no status guard). -/
def allowedEdge : JobStatus → JobStatus → Bool
  | .completed, .in_progress => true
  | .failed, .in_progress => true
  | s, t => claimedEdge s t

def goodJobsOn (jobs : List (String × Job)) (ctxs : List (String × Obj)) : Bool :=
  jobs.all (fun p =>
    decide (p.2.status ≠ JobStatus.in_progress) && (lookupKey ctxs p.1).isSome)

/-- Between operations, no job is left `in_progress` and every active job
has a JobContext (established by `assignJob`, never removed by
`execute`/`retryJob`). -/
def goodJobs (st : AgencyState) : Bool := goodJobsOn st.activeJobs st.jobContexts

/-- Every recorded status transition is an `allowedEdge`. -/
def goodLog (st : AgencyState) : Bool :=
  st.statusLog.all (fun t => allowedEdge t.2.1 t.2.2)

def C1Inv (st : AgencyState) : Prop := goodJobs st = true ∧ goodLog st = true

theorem lookupKey_mem {α : Type} (l : List (String × α)) (k : String) (v : α)
    (h : lookupKey l k = some v) : (k, v) ∈ l := by
  induction l with
  | nil => cases h
  | cons p rest ih =>
      obtain ⟨k₁, v₁⟩ := p
      by_cases hk : k₁ = k
      · subst hk
        simp only [lookupKey, if_pos rfl] at h
        injection h with h
        subst h
        exact List.mem_cons_self _ _
      · simp only [lookupKey, if_neg hk] at h
        exact List.mem_cons_of_mem _ (ih h)

theorem mem_setEntry {α : Type} (l : List (String × α)) (k : String) (v : α)
    (x : String × α) (h : x ∈ setEntry l k v) : x = (k, v) ∨ x ∈ l := by
  induction l with
  | nil => simpa [setEntry] using h
  | cons p rest ih =>
      obtain ⟨k₁, v₁⟩ := p
      by_cases hk : k₁ = k
      · subst hk
        simp only [setEntry, if_pos rfl] at h
        rcases List.mem_cons.mp h with h | h
        · exact Or.inl h
        · exact Or.inr (List.mem_cons_of_mem _ h)
      · simp only [setEntry, if_neg hk] at h
        rcases List.mem_cons.mp h with h | h
        · exact Or.inr (h ▸ List.mem_cons_self _ _)
        · rcases ih h with h | h
          · exact Or.inl h
          · exact Or.inr (List.mem_cons_of_mem _ h)

theorem allowedEdge_to_in_progress (s : JobStatus) (h : s ≠ JobStatus.in_progress) :
    allowedEdge s JobStatus.in_progress = true := by
  cases s <;> simp_all [allowedEdge, claimedEdge]

theorem setEntry_setEntry {α : Type} (l : List (String × α)) (k : String) (v v₂ : α) :
    setEntry (setEntry l k v) k v₂ = setEntry l k v₂ := by
  induction l with
  | nil => simp [setEntry]
  | cons p rest ih =>
      obtain ⟨k₁, v₁⟩ := p
      by_cases hk : k₁ = k
      · subst hk
        simp [setEntry]
      · simp [setEntry, hk, ih]

theorem isSome_lookupKey_setEntry {α : Type} (l : List (String × α)) (k : String)
    (v : α) (kid : String) (h : (lookupKey l kid).isSome = true) :
    (lookupKey (setEntry l k v) kid).isSome = true := by
  rw [lookupKey_setEntry]
  split_ifs
  · rfl
  · exact h

theorem lookupKey_setEntry_self {α : Type} (l : List (String × α)) (k : String)
    (v : α) : lookupKey (setEntry l k v) k = some v := by
  rw [lookupKey_setEntry]
  simp

theorem goodJobsOn_facts {jobs : List (String × Job)} {ctxs : List (String × Obj)}
    {jobId : String} {job : Job} (h : goodJobsOn jobs ctxs = true)
    (hmem : (jobId, job) ∈ jobs) :
    job.status ≠ JobStatus.in_progress ∧ (lookupKey ctxs jobId).isSome = true := by
  simp only [goodJobsOn, List.all_eq_true] at h
  have := h (jobId, job) hmem
  simpa using this

theorem goodJobsOn_setEntry {jobs : List (String × Job)} {ctxs ctxs₂ : List (String × Obj)}
    {jobId : String} {j : Job} (h : goodJobsOn jobs ctxs = true)
    (hj : j.status ≠ JobStatus.in_progress)
    (hmono : ∀ kid, (lookupKey ctxs kid).isSome = true →
      (lookupKey ctxs₂ kid).isSome = true)
    (hjid : (lookupKey ctxs₂ jobId).isSome = true) :
    goodJobsOn (setEntry jobs jobId j) ctxs₂ = true := by
  simp only [goodJobsOn, List.all_eq_true] at h ⊢
  intro p hp
  rcases mem_setEntry _ _ _ _ hp with hp | hp
  · subst hp
    simp only [Bool.and_eq_true, decide_eq_true_eq]
    exact ⟨hj, hjid⟩
  · have hq := h p hp
    simp only [Bool.and_eq_true, decide_eq_true_eq] at hq ⊢
    exact ⟨hq.1, hmono p.1 hq.2⟩

/-- Shape of the state produced by the try block of `execute`: the job entry
is overwritten with one job object `j` whose status matches the outcome, the
JobContext table only grows, and the `statusLog` grows by transitions that
are either the initial `job.status → in_progress` entry or allowed edges. -/
theorem Agency.executeAttempt_shape (env : Env) (st : AgencyState) (jobId : String)
    (job : Job) (extra : Obj) (ctx : Obj)
    (hctx : lookupKey st.jobContexts jobId = some ctx) :
    ∃ (j : Job) (delta : List (String × JobStatus × JobStatus)),
      (Agency.executeAttempt env st jobId job extra).1.activeJobs =
        setEntry st.activeJobs jobId j ∧
      (∀ kid : String, (lookupKey st.jobContexts kid).isSome = true →
        (lookupKey (Agency.executeAttempt env st jobId job extra).1.jobContexts kid).isSome
          = true) ∧
      (Agency.executeAttempt env st jobId job extra).1.statusLog =
        st.statusLog ++ delta ∧
      (∀ t ∈ delta, t = (jobId, job.status, JobStatus.in_progress) ∨
        allowedEdge t.2.1 t.2.2 = true) ∧
      (∀ r, (Agency.executeAttempt env st jobId job extra).2 = .ok r →
        j.status = JobStatus.completed) ∧
      (∀ e, (Agency.executeAttempt env st jobId job extra).2 = .error e →
        j.status = JobStatus.in_progress) := by
  have hmem1 : ∀ t ∈ [(jobId, job.status, JobStatus.in_progress)],
      t = (jobId, job.status, JobStatus.in_progress) ∨ allowedEdge t.2.1 t.2.2 = true := by
    intro t ht
    simp only [List.mem_singleton] at ht
    exact Or.inl ht
  have hmem2 : ∀ t ∈ [(jobId, job.status, JobStatus.in_progress),
      (jobId, JobStatus.in_progress, JobStatus.completed)],
      t = (jobId, job.status, JobStatus.in_progress) ∨ allowedEdge t.2.1 t.2.2 = true := by
    intro t ht
    rcases List.mem_cons.mp ht with h | h
    · exact Or.inl h
    · simp only [List.mem_singleton] at h
      subst h
      exact Or.inr rfl
  simp only [Agency.executeAttempt, Agency.updateJobContext, emit, hctx, Option.getD_some]
  split_ifs with h1 h2
  · exact ⟨_, [(jobId, job.status, JobStatus.in_progress)], rfl, fun kid h => h, rfl,
      hmem1, fun r h => by simp at h, fun e h => rfl⟩
  all_goals (
    split
    · exact ⟨_, [(jobId, job.status, JobStatus.in_progress)], rfl, fun kid h => h, rfl,
        hmem1, fun r h => by simp at h, fun e h => rfl⟩
    · split_ifs with h3
      · exact ⟨_, [(jobId, job.status, JobStatus.in_progress)], rfl, fun kid h => h, rfl,
          hmem1, fun r h => by simp at h, fun e h => rfl⟩
      · exact ⟨_, [(jobId, job.status, JobStatus.in_progress),
          (jobId, JobStatus.in_progress, JobStatus.completed)],
          setEntry_setEntry _ _ _ _,
          (by
            intro kid h
            dsimp only
            rw [lookupKey_setEntry]
            split_ifs
            · rfl
            · exact h),
          (by simp),
          hmem2, fun r h => rfl, fun e h => by simp at h⟩)

/-- `execute` preserves the job/log invariant: the only edges it appends are
`old → in_progress` (old is never `in_progress` between calls),
`in_progress → completed`, and `in_progress → failed`. -/
theorem Agency.execute_inv (env : Env) (st : AgencyState) (jobId : String)
    (extra : Obj) (h : C1Inv st) : C1Inv (Agency.execute env st jobId extra).1 := by
  obtain ⟨hjobs, hlog⟩ := h
  rcases hjob : lookupKey st.activeJobs jobId with _ | job
  · simp only [Agency.execute, hjob]
    exact ⟨hjobs, hlog⟩
  · obtain ⟨hstat, hctxS⟩ := goodJobsOn_facts hjobs (lookupKey_mem _ _ _ hjob)
    obtain ⟨ctx, hctx⟩ := Option.isSome_iff_exists.mp hctxS
    obtain ⟨j, delta, hA, hC, hL, hD, hOk, hErr⟩ :=
      Agency.executeAttempt_shape env st jobId job extra ctx hctx
    have hdelta : delta.all (fun t => allowedEdge t.2.1 t.2.2) = true := by
      apply List.all_eq_true.mpr
      intro t ht
      rcases hD t ht with h | h
      · subst h
        exact allowedEdge_to_in_progress job.status hstat
      · exact h
    simp only [Agency.execute, hjob]
    rcases hatt : Agency.executeAttempt env st jobId job extra with ⟨st₁, res⟩
    rw [hatt] at hA hC hL hOk hErr
    dsimp only at hA hC hL hOk hErr
    cases res with
    | ok results =>
        have hjstat : j.status = JobStatus.completed := hOk results rfl
        dsimp only
        constructor
        · show goodJobsOn st₁.activeJobs st₁.jobContexts = true
          rw [hA]
          apply goodJobsOn_setEntry hjobs _ hC (hC jobId hctxS)
          rw [hjstat]
          exact fun hx => JobStatus.noConfusion hx
        · show st₁.statusLog.all (fun t => allowedEdge t.2.1 t.2.2) = true
          rw [hL, List.all_append]
          simp only [Bool.and_eq_true]
          exact ⟨hlog, hdelta⟩
    | error e =>
        have hjstat : j.status = JobStatus.in_progress := hErr e rfl
        have hcur : lookupKey st₁.activeJobs jobId = some j := by
          rw [hA]
          exact lookupKey_setEntry_self _ _ _
        dsimp only
        simp only [hcur, Option.getD_some, emit]
        have hgj : goodJobsOn
            (setEntry st₁.activeJobs jobId
              { j with status := JobStatus.failed, error := some e })
            st₁.jobContexts = true := by
          rw [hA, setEntry_setEntry]
          apply goodJobsOn_setEntry hjobs _ hC (hC jobId hctxS)
          exact fun hx => JobStatus.noConfusion hx
        have hgl : (st₁.statusLog ++ [(jobId, j.status, JobStatus.failed)]).all
            (fun t => allowedEdge t.2.1 t.2.2) = true := by
          rw [hL, List.all_append, List.all_append]
          simp only [Bool.and_eq_true]
          refine ⟨⟨hlog, hdelta⟩, ?_⟩
          rw [hjstat]
          rfl
        split
        · split
          · exact ⟨hgj, hgl⟩
          · exact ⟨hgj, hgl⟩
        · exact ⟨hgj, hgl⟩

/-- `assignJob` preserves the invariant: it installs a fresh `assigned` job,
guarantees that job a JobContext, and appends nothing to the status log. -/
theorem Agency.assignJob_inv (st : AgencyState) (jobId aid ty : String)
    (h : C1Inv st) : C1Inv (Agency.assignJob st jobId aid ty).1 := by
  obtain ⟨hjobs, hlog⟩ := h
  simp only [Agency.assignJob, Agency.createJobContext, emit]
  rcases hb : lookupKey st.brief jobId with _ | brief
  · exact ⟨hjobs, hlog⟩
  · dsimp only
    rcases hc : lookupKey st.jobContexts jobId with _ | ctx₀ <;>
      simp only [hc] <;>
      split_ifs <;>
      try exact ⟨hjobs, hlog⟩
    all_goals
      first
        | (constructor
           · show goodJobsOn (setEntry st.activeJobs jobId _) st.jobContexts = true
             exact goodJobsOn_setEntry hjobs (fun hx => JobStatus.noConfusion hx)
               (fun kid hk => hk) (by rw [hc]; rfl)
           · exact hlog)
        | (constructor
           · show goodJobsOn (setEntry st.activeJobs jobId _)
               (setEntry st.jobContexts jobId _) = true
             exact goodJobsOn_setEntry hjobs (fun hx => JobStatus.noConfusion hx)
               (fun kid hk => isSome_lookupKey_setEntry _ _ _ _ hk)
               (by rw [lookupKey_setEntry_self]; rfl)
           · exact hlog)

/-- `retryJob` preserves the invariant: its only direct log entry is
`failed → assigned` (guarded by the failed-state check), after which it calls
`execute` on a state that satisfies the invariant again. -/
theorem Agency.retryJob_inv (env : Env) (st : AgencyState) (jobId : String)
    (maxRetries : Nat) (extra : Obj) (h : C1Inv st) :
    C1Inv (Agency.retryJob env st jobId maxRetries extra).1 := by
  obtain ⟨hjobs, hlog⟩ := h
  simp only [Agency.retryJob, emit]
  rcases hjob : lookupKey st.activeJobs jobId with _ | job
  · exact ⟨hjobs, hlog⟩
  · dsimp only
    split_ifs with h1 h2
    · exact ⟨hjobs, hlog⟩
    · exact ⟨hjobs, hlog⟩
    · have hst : job.status = JobStatus.failed := not_not.mp h1
      have hfacts := goodJobsOn_facts hjobs (lookupKey_mem _ _ _ hjob)
      apply Agency.execute_inv
      constructor
      · show goodJobsOn (setEntry st.activeJobs jobId _) st.jobContexts = true
        apply goodJobsOn_setEntry hjobs _ (fun kid hk => hk) hfacts.2
        exact fun hx => JobStatus.noConfusion hx
      · show (st.statusLog ++ [(jobId, job.status, JobStatus.assigned)]).all
          (fun t => allowedEdge t.2.1 t.2.2) = true
        rw [List.all_append]
        simp only [Bool.and_eq_true]
        refine ⟨hlog, ?_⟩
        rw [hst]
        rfl

theorem runOp_inv (env : Env) (st : AgencyState) (op : AgOp) (h : C1Inv st) :
    C1Inv (runOp env st op) := by
  cases op with
  | assign jobId aid ty => exact Agency.assignJob_inv st jobId aid ty h
  | exec jobId extra => exact Agency.execute_inv env st jobId extra h
  | retry jobId maxRetries extra =>
      exact Agency.retryJob_inv env st jobId maxRetries extra h

theorem runOps_inv (env : Env) (st : AgencyState) (ops : List AgOp) (h : C1Inv st) :
    C1Inv (runOps env st ops) := by
  induction ops generalizing st with
  | nil => exact h
  | cons op rest ih => exact ih (runOp env st op) (runOp_inv env st op h)

/-- A run that calls `execute` a second time on an already-completed job:
brief, assignment to team `t1`, then two direct `execute` calls. -/
def c1run : AgencyState :=
  runOps okEnv (Agency.createBrief (mkAgency [] ["t1"]) "j" []).1
    [.assign "j" "t1" "team", .exec "j" [], .exec "j" []]

/-- C1: the claim is refuted as stated.  `execute` has no status guard, so a
second direct `execute` call on a completed job performs the transition
`completed → in_progress`, which is outside the claimed edge set
(`assigned→in_progress`, `in_progress→completed`, `in_progress→failed`,
`failed→assigned`): after assign + execute + execute the ghost status log
contains `("j", completed, in_progress)`, yet `claimedEdge completed
in_progress = false`. -/
theorem C1_status_edges_counterexample :
    c1run.statusLog =
      [("j", JobStatus.assigned, JobStatus.in_progress),
       ("j", JobStatus.in_progress, JobStatus.completed),
       ("j", JobStatus.completed, JobStatus.in_progress),
       ("j", JobStatus.in_progress, JobStatus.completed)] ∧
    ("j", JobStatus.completed, JobStatus.in_progress) ∈ c1run.statusLog ∧
    claimedEdge JobStatus.completed JobStatus.in_progress = false := by
  refine ⟨rfl, ?_, rfl⟩
  rw [show c1run.statusLog =
    [("j", JobStatus.assigned, JobStatus.in_progress),
     ("j", JobStatus.in_progress, JobStatus.completed),
     ("j", JobStatus.completed, JobStatus.in_progress),
     ("j", JobStatus.in_progress, JobStatus.completed)] from rfl]
  simp

/-- C1 (amended): over every sequence of `assignJob`/`execute`/`retryJob`
calls from a state whose active jobs are all non-`in_progress` and all have a
JobContext, and whose status log so far only holds allowed edges, every
transition ever recorded lies in the edge set `assigned→in_progress`,
`in_progress→completed`, `in_progress→failed`, `failed→assigned`, *plus* the
two re-execution edges `completed→in_progress` and `failed→in_progress` that
a direct `execute` call on a terminal job performs (there is no status
guard in `execute`). -/
theorem C1_amended_status_edges (env : Env) (st : AgencyState) (ops : List AgOp)
    (hjobs : goodJobs st = true) (hlog : goodLog st = true) :
    goodLog (runOps env st ops) = true :=
  (runOps_inv env st ops ⟨hjobs, hlog⟩).2

/-- Witness for the amended C1: a concrete run exercising all three call
kinds — a failing job, a retry that fails again, and a direct re-execution of
the failed job (which performs the `failed → in_progress` edge) — whose
status log the theorem certifies against `allowedEdge`. -/
theorem C1_amended_status_edges_witness :
    goodJobs (Agency.createBrief (mkAgency [] ["t1", "tfail"]) "j" []).1 = true ∧
    goodLog (Agency.createBrief (mkAgency [] ["t1", "tfail"]) "j" []).1 = true ∧
    goodLog (runOps okEnv (Agency.createBrief (mkAgency [] ["t1", "tfail"]) "j" []).1
      [.assign "j" "tfail" "team", .exec "j" [], .retry "j" 3 [], .exec "j" []]) =
      true :=
  ⟨rfl, rfl,
    C1_amended_status_edges okEnv (Agency.createBrief (mkAgency [] ["t1", "tfail"]) "j" []).1
      [.assign "j" "tfail" "team", .exec "j" [], .retry "j" 3 [], .exec "j" []]
      rfl rfl⟩
